import Mathlib

/-!
Verification development for the clustercost-agent-k8s core: the snapshot
builder (proportional cost allocation and aggregation), the environment
classifier, the node price lookup and the usage-metrics collector.

Modelling conventions, applied uniformly:
* Go `float64` arithmetic is embedded as exact rational arithmetic (`Rat`);
  the properties of interest are stated by the spec as exact values or
  order facts, so round-off plays no role.
* A Go `map[string]V` that is only ever written through insertion and read
  through lookup is embedded as an association list (`mapInsert` /
  `mapLookup`, later insert of the same key overwrites).  The two maps the
  builder also *iterates and then sorts by key* are embedded as `StrMap`:
  a lookup function together with the multiset of live keys, so that the
  embedding, like a Go map, carries no iteration order; the builder's
  terminal `sort.Slice` by name is embedded as sorting that key multiset.
* Go resource quantities (`MilliValue`, `Value`) enter the model as the
  integers they denote; timestamps are opaque integers.
* Fallible Go code returning `(T, error)` is embedded returning the pair
  of an `Option` result and an `Option` error message, since the Go code
  under verification can return both a non-nil map and a non-nil error.
-/

/-- Embedding of Go `strings.ToLower` (per-character lowering). -/
def strToLower (s : String) : String :=
  String.mk (s.data.map Char.toLower)

/-- Embedding of Go `strings.Contains`: substring test on the character list. -/
def strContains (s sub : String) : Bool :=
  decide (sub.data <:+: s.data)

/-- Boolean string comparison (the order Go `sort.Strings` uses),
expressed through the lexicographic order on the character lists. -/
def strLeB (a b : String) : Bool :=
  !(decide (b.data < a.data))

/-- Insert one string into an already sorted list (insertion sort step). -/
def insortStr (k : String) : List String → List String
  | [] => [k]
  | x :: xs => if strLeB k x then k :: x :: xs else x :: insortStr k xs

/-- Sort a list of strings ascending: the embedding of Go `sort.Strings`. -/
def sortStrings (l : List String) : List String :=
  l.foldr insortStr []

theorem strLeB_iff (a b : String) : strLeB a b = true ↔ a ≤ b := by
  simp [strLeB, String.le_iff_toList_le, String.toList]

theorem strLeB_total (a b : String) : strLeB a b = true ∨ strLeB b a = true := by
  rw [strLeB_iff, strLeB_iff]
  exact le_total a b

theorem insortStr_perm (k : String) (l : List String) :
    (insortStr k l).Perm (k :: l) := by
  induction l with
  | nil => exact List.Perm.refl _
  | cons x xs ih =>
    by_cases h : strLeB k x = true
    · rw [insortStr, if_pos h]
    · rw [insortStr, if_neg h]
      exact (ih.cons x).trans (List.Perm.swap k x xs)

theorem sortStrings_perm (l : List String) : (sortStrings l).Perm l := by
  induction l with
  | nil => exact List.Perm.refl _
  | cons x xs ih =>
    exact (insortStr_perm x (sortStrings xs)).trans (ih.cons x)

theorem insortStr_sorted (k : String) (l : List String)
    (h : l.Sorted (· ≤ ·)) : (insortStr k l).Sorted (· ≤ ·) := by
  induction l with
  | nil => simp [insortStr]
  | cons x xs ih =>
    rw [List.sorted_cons] at h
    by_cases hk : strLeB k x = true
    · rw [insortStr, if_pos hk, List.sorted_cons]
      refine ⟨?_, (List.sorted_cons).2 h⟩
      intro b hb
      rcases List.mem_cons.1 hb with hb | hb
      · exact hb ▸ (strLeB_iff k x).1 hk
      · exact le_trans ((strLeB_iff k x).1 hk) (h.1 b hb)
    · rw [insortStr, if_neg hk, List.sorted_cons]
      have hxk : x ≤ k := by
        rcases strLeB_total k x with hh | hh
        · exact absurd hh hk
        · exact (strLeB_iff x k).1 hh
      refine ⟨?_, ih h.2⟩
      intro b hb
      have hb' := (insortStr_perm k xs).mem_iff.1 hb
      rcases List.mem_cons.1 hb' with hb2 | hb2
      · exact hb2 ▸ hxk
      · exact h.1 b hb2

theorem sortStrings_sorted (l : List String) :
    (sortStrings l).Sorted (· ≤ ·) := by
  induction l with
  | nil => simp [sortStrings]
  | cons x xs ih => exact insortStr_sorted x (sortStrings xs) ih

theorem sortStrings_eq_of_perm {l₁ l₂ : List String} (h : l₁.Perm l₂) :
    sortStrings l₁ = sortStrings l₂ :=
  List.eq_of_perm_of_sorted
    ((sortStrings_perm l₁).trans (h.trans (sortStrings_perm l₂).symm))
    (sortStrings_sorted l₁) (sortStrings_sorted l₂)

/-- Sort a multiset of strings into an ascending list.  The multiset is the
embedding of a Go map's (unordered) key set; this is the embedding of the
builder's terminal `sort.Slice` over the map's entries. -/
def sortedKeyList (s : Multiset String) : List String :=
  Quot.liftOn s sortStrings (fun _ _ h => sortStrings_eq_of_perm h)

theorem sortedKeyList_coe (l : List String) :
    sortedKeyList (l : Multiset String) = sortStrings l := rfl

theorem sortedKeyList_perm (s : Multiset String) :
    (sortedKeyList s : Multiset String) = s := by
  induction s using Quot.inductionOn with
  | h l => exact Quot.sound (sortStrings_perm l)

theorem mem_sortedKeyList (s : Multiset String) (k : String) :
    k ∈ sortedKeyList s ↔ k ∈ s := by
  induction s using Quot.inductionOn with
  | h l => exact (sortStrings_perm l).mem_iff

theorem sortedKeyList_sorted (s : Multiset String) :
    (sortedKeyList s).Sorted (· ≤ ·) := by
  induction s using Quot.inductionOn with
  | h l => exact sortStrings_sorted l

theorem sortedKeyList_nodup (s : Multiset String) (h : s.Nodup) :
    (sortedKeyList s).Nodup := by
  induction s using Quot.inductionOn with
  | h l => exact (sortStrings_perm l).nodup_iff.2 h

/-- Association-list lookup: the embedding of a read `m[k]` of a Go map. -/
def mapLookup {α : Type} (m : List (String × α)) (k : String) : Option α :=
  match m with
  | [] => none
  | (k0, v) :: rest => if k0 = k then some v else mapLookup rest k

/-- Association-list insert-or-overwrite: the embedding of a Go map write
`m[k] = v`. -/
def mapInsert {α : Type} (m : List (String × α)) (k : String) (v : α) :
    List (String × α) :=
  match m with
  | [] => [(k, v)]
  | (k0, v0) :: rest =>
    if k0 = k then (k, v) :: rest else (k0, v0) :: mapInsert rest k v

theorem mapLookup_insert_self {α : Type} (m : List (String × α)) (k : String)
    (v : α) : mapLookup (mapInsert m k v) k = some v := by
  induction m with
  | nil => simp [mapInsert, mapLookup]
  | cons hd tl ih =>
    obtain ⟨k0, v0⟩ := hd
    by_cases h : k0 = k
    · simp [mapInsert, h, mapLookup]
    · simp [mapInsert, h, mapLookup, ih]

theorem mapLookup_insert_ne {α : Type} (m : List (String × α)) (k q : String)
    (v : α) (h : k ≠ q) : mapLookup (mapInsert m k v) q = mapLookup m q := by
  induction m with
  | nil => simp [mapInsert, mapLookup, h]
  | cons hd tl ih =>
    obtain ⟨k0, v0⟩ := hd
    by_cases h0 : k0 = k
    · subst h0
      rw [mapInsert, if_pos rfl, mapLookup, if_neg h, mapLookup, if_neg h]
    · by_cases h1 : k0 = q
      · rw [mapInsert, if_neg h0, mapLookup, if_pos h1, mapLookup, if_pos h1]
      · rw [mapInsert, if_neg h0, mapLookup, if_neg h1, mapLookup, if_neg h1, ih]

theorem mapLookup_mem {α : Type} (m : List (String × α)) (k : String) (v : α)
    (h : mapLookup m k = some v) : (k, v) ∈ m := by
  induction m with
  | nil => simp [mapLookup] at h
  | cons hd tl ih =>
    obtain ⟨k0, v0⟩ := hd
    by_cases h0 : k0 = k
    · subst h0
      rw [mapLookup, if_pos rfl] at h
      obtain rfl : v0 = v := by injection h
      exact List.mem_cons_self _ _
    · rw [mapLookup, if_neg h0] at h
      exact List.mem_cons_of_mem _ (ih h)

theorem mem_mapInsert {α : Type} (m : List (String × α)) (k q : String)
    (v w : α) (h : (q, w) ∈ mapInsert m k v) :
    (q, w) = (k, v) ∨ (q, w) ∈ m := by
  induction m with
  | nil => simpa [mapInsert] using h
  | cons hd tl ih =>
    obtain ⟨k0, v0⟩ := hd
    by_cases h0 : k0 = k
    · subst h0
      rw [mapInsert, if_pos rfl] at h
      rcases List.mem_cons.1 h with h1 | h1
      · exact Or.inl h1
      · exact Or.inr (List.mem_cons_of_mem _ h1)
    · rw [mapInsert, if_neg h0] at h
      rcases List.mem_cons.1 h with h1 | h1
      · exact Or.inr (h1 ▸ List.mem_cons_self _ _)
      · rcases ih h1 with h2 | h2
        · exact Or.inl h2
        · exact Or.inr (List.mem_cons_of_mem _ h2)

/-- Embedding of a Go `map[string]V` that the code also iterates: the lookup
function together with the multiset of live keys (a Go map iterates its keys
in no particular order, hence a multiset). -/
structure StrMap (α : Type) where
  find : String → Option α
  keys : Multiset String

/-- Statically empty map (`make(map[string]V, n)`). -/
def StrMap.empty {α : Type} : StrMap α :=
  { find := fun _ => none, keys := 0 }

/-- Map write `m[k] = v`. -/
def StrMap.insert {α : Type} (m : StrMap α) (k : String) (v : α) : StrMap α :=
  { find := fun q => if q = k then some v else m.find q
    keys := if (m.find k).isSome then m.keys else k ::ₘ m.keys }

theorem StrMap.find_insert_self {α : Type} (m : StrMap α) (k : String)
    (v : α) : (m.insert k v).find k = some v := by
  simp [StrMap.insert]

theorem StrMap.find_insert_ne {α : Type} (m : StrMap α) (k q : String)
    (v : α) (h : q ≠ k) : (m.insert k v).find q = m.find q := by
  simp [StrMap.insert, h]

theorem StrMap.eq_of {α : Type} {m₁ m₂ : StrMap α} (hf : m₁.find = m₂.find)
    (hk : m₁.keys = m₂.keys) : m₁ = m₂ := by
  cases m₁
  cases m₂
  simp_all

theorem StrMap.insert_comm_ne {α : Type} (m : StrMap α) (k₁ k₂ : String)
    (v₁ v₂ : α) (h : k₁ ≠ k₂) :
    (m.insert k₁ v₁).insert k₂ v₂ = (m.insert k₂ v₂).insert k₁ v₁ := by
  apply StrMap.eq_of
  · funext q
    simp only [StrMap.insert]
    by_cases h1 : q = k₁ <;> by_cases h2 : q = k₂ <;> simp_all
  · simp only [StrMap.insert]
    have h21 : ¬(k₂ = k₁) := fun hh => h hh.symm
    simp only [h, h21, if_false, if_neg h, if_neg h21]
    by_cases hk1 : (m.find k₁).isSome <;> by_cases hk2 : (m.find k₂).isSome <;>
      simp [hk1, hk2, Multiset.cons_swap]

theorem StrMap.insert_shadow {α : Type} (m : StrMap α) (k : String)
    (v w : α) : (m.insert k v).insert k w = m.insert k w := by
  apply StrMap.eq_of
  · funext q
    simp only [StrMap.insert]
    by_cases h : q = k <;> simp [h]
  · simp only [StrMap.insert]
    by_cases h : (m.find k).isSome <;> simp [h]

theorem StrMap.keys_insert_of_isSome {α : Type} (m : StrMap α) (k : String)
    (v : α) (h : (m.find k).isSome) : (m.insert k v).keys = m.keys := by
  simp [StrMap.insert, h]

theorem StrMap.keys_insert_of_none {α : Type} (m : StrMap α) (k : String)
    (v : α) (h : m.find k = none) : (m.insert k v).keys = k ::ₘ m.keys := by
  simp [StrMap.insert, h]

/-- Coherence invariant a Go map enjoys by construction: a key is live
exactly when lookup succeeds, and the key multiset has no duplicates. -/
def StrMap.Coherent {α : Type} (m : StrMap α) : Prop :=
  (∀ k, (m.find k).isSome ↔ k ∈ m.keys) ∧ m.keys.Nodup

theorem StrMap.coherent_empty {α : Type} : (StrMap.empty (α := α)).Coherent := by
  constructor
  · intro k
    simp [StrMap.empty]
  · simp [StrMap.empty]

theorem StrMap.coherent_insert {α : Type} (m : StrMap α) (k : String) (v : α)
    (h : m.Coherent) : (m.insert k v).Coherent := by
  obtain ⟨hmem, hnodup⟩ := h
  by_cases hk : (m.find k).isSome
  · constructor
    · intro q
      by_cases hq : q = k
      · subst hq
        simp [StrMap.insert, hk, (hmem q).1 hk]
      · rw [StrMap.find_insert_ne m k q v hq, StrMap.keys_insert_of_isSome m k v hk]
        exact hmem q
    · rwa [StrMap.keys_insert_of_isSome m k v hk]
  · have hnone : m.find k = none := by
      cases hfk : m.find k
      · rfl
      · exact absurd (by simp [hfk]) hk
    constructor
    · intro q
      by_cases hq : q = k
      · subst hq
        simp [StrMap.insert, hnone]
      · rw [StrMap.find_insert_ne m k q v hq, StrMap.keys_insert_of_none m k v hnone]
        simp [hq, hmem q]
    · rw [StrMap.keys_insert_of_none m k v hnone]
      refine Multiset.nodup_cons.2 ⟨?_, hnodup⟩
      intro hmem'
      exact hk ((hmem k).2 hmem')

/-! ## Data model (src/internal/snapshot/types.go, src/internal/kube) -/

/-- PodUsage: per-pod usage sample (internal/kube). -/
structure PodUsage where
  CPUUsageMilli : Int
  MemoryUsageBytes : Int
deriving DecidableEq, Repr

/-- One corev1.NodeCondition, reduced to the fields the code reads. -/
structure NodeCondition where
  condType : String
  status : String
deriving DecidableEq, Repr

/-- One corev1.Taint, reduced to the fields the code reads. -/
structure Taint where
  key : String
  value : String
  effect : String
deriving DecidableEq, Repr

/-- A node as the builder reads it: name, labels, taints, allocatable
CPU (milli) and memory (bytes) already extracted from status, and the
status conditions. -/
structure NodeInfo where
  name : String
  labels : List (String × String)
  taints : List Taint
  allocatableCPUMilli : Int
  allocatableMemoryBytes : Int
  conditions : List NodeCondition
deriving DecidableEq, Repr

/-- A namespace object: name and labels. -/
structure NamespaceInfo where
  name : String
  labels : List (String × String)
deriving DecidableEq, Repr

/-- Requests of one container (init, ephemeral or regular). -/
structure ContainerRequests where
  cpuMilli : Int
  memoryBytes : Int
deriving DecidableEq, Repr

/-- A pod as the builder reads it.  `deleted` embeds
`DeletionTimestamp != nil`; `phase` is the status phase string. -/
structure PodInfo where
  name : String
  ns : String
  nodeName : String
  containers : List ContainerRequests
  initContainers : List ContainerRequests
  ephemeralContainers : List ContainerRequests
  deleted : Bool
  phase : String
deriving DecidableEq, Repr

/-- NamespaceCostRecord (types.go). -/
structure NamespaceCostRecord where
  ClusterID : String
  Namespace : String
  HourlyCost : Rat
  PodCount : Int
  CPURequestMilli : Int
  MemoryRequestBytes : Int
  CPUUsageMilli : Int
  MemoryUsageBytes : Int
  Labels : List (String × String)
  Environment : String
deriving DecidableEq, Repr

/-- NodeCostRecord (types.go). -/
structure NodeCostRecord where
  ClusterID : String
  NodeName : String
  HourlyCost : Rat
  CPUUsagePercent : Rat
  MemoryUsagePercent : Rat
  CPUAllocatableMilli : Int
  MemoryAllocatableBytes : Int
  PodCount : Int
  Status : String
  IsUnderPressure : Bool
  InstanceType : String
  Labels : List (String × String)
  Taints : List String
deriving DecidableEq, Repr

/-- ResourceSnapshot (types.go): cluster-wide totals. -/
structure ResourceSnapshot where
  ClusterID : String
  CPUUsageMilliTotal : Int
  CPURequestMilliTotal : Int
  MemoryUsageBytesTotal : Int
  MemoryRequestBytesTotal : Int
  TotalNodeHourlyCost : Rat
deriving DecidableEq, Repr

/-- Snapshot (types.go); the timestamp is opaque to the builder. -/
structure Snapshot where
  Timestamp : Int
  Namespaces : List NamespaceCostRecord
  Nodes : List NodeCostRecord
  Resources : ResourceSnapshot
deriving DecidableEq, Repr

/-! ## Environment classifier (src/internal/snapshot/classifier.go) -/

/-- ClassifierConfig (classifier.go). -/
structure ClassifierConfig where
  LabelKeys : List String
  ProductionLabelValues : List String
  NonProdLabelValues : List String
  SystemLabelValues : List String
  ProductionNameContains : List String
  SystemNamespaces : List String
deriving DecidableEq, Repr

/-- EnvironmentClassifier (classifier.go): normalized lookups.  The Go
`map[string]struct{}` system-namespace set is embedded as the list of its
members (lower-cased), read only through membership. -/
structure EnvironmentClassifier where
  labelKeys : List String
  labelValueMap : List (String × String)
  productionNameContains : List String
  systemNamespaces : List String
deriving DecidableEq, Repr

/-- NewEnvironmentClassifier (classifier.go): defaults and normalization. -/
def NewEnvironmentClassifier (cfg : ClassifierConfig) : EnvironmentClassifier :=
  let labelKeys := if cfg.LabelKeys = [] then ["clustercost.io/environment"]
    else cfg.LabelKeys
  let labelValueMap :=
    cfg.SystemLabelValues.foldl (fun m v => mapInsert m (strToLower v) "system")
      (cfg.NonProdLabelValues.foldl (fun m v => mapInsert m (strToLower v) "nonprod")
        (cfg.ProductionLabelValues.foldl
          (fun m v => mapInsert m (strToLower v) "production") []))
  let sysNamespaces := cfg.SystemNamespaces.map strToLower
  let prodContains0 := cfg.ProductionNameContains.map strToLower
  let prodContains := if prodContains0 = [] then ["prod"] else prodContains0
  { labelKeys := labelKeys
    labelValueMap := labelValueMap
    productionNameContains := prodContains
    systemNamespaces := sysNamespaces }

/-- Label-key loop of Classify (classifier.go): first key that is non-empty
and present in the labels with a non-empty value decides; `none` means fall
through to the name heuristics. -/
def classifyByLabelKeys (valueMap : List (String × String))
    (labels : List (String × String)) : List String → Option String
  | [] => none
  | key :: rest =>
    if key = "" then classifyByLabelKeys valueMap labels rest
    else
      match mapLookup labels key with
      | some value =>
        if value = "" then classifyByLabelKeys valueMap labels rest
        else
          match mapLookup valueMap (strToLower value) with
          | some env => some env
          | none => some "unknown"
      | none => classifyByLabelKeys valueMap labels rest

/-- Classify (classifier.go).  A nil Go label map and an empty one behave
identically here, since the label loop reads the map only through lookups. -/
def EnvironmentClassifier.Classify (c : EnvironmentClassifier) (name : String)
    (labels : List (String × String)) : String :=
  match classifyByLabelKeys c.labelValueMap labels c.labelKeys with
  | some env => env
  | none =>
    let lowerName := strToLower name
    if c.productionNameContains.any
        (fun needle => needle ≠ "" && strContains lowerName needle) then
      "production"
    else if lowerName ∈ c.systemNamespaces then "system"
    else "nonprod"

/-- Modelled from the claim's words (C5), for comparison with the source's
Classify: the first configured label key present in the labels with a
non-empty value decides — with no empty-key guard — and the name heuristics
match any configured needle, with no non-empty-needle guard. -/
def classifySpecLabelKeys (valueMap : List (String × String))
    (labels : List (String × String)) : List String → Option String
  | [] => none
  | key :: rest =>
    match mapLookup labels key with
    | some value =>
      if value = "" then classifySpecLabelKeys valueMap labels rest
      else
        match mapLookup valueMap (strToLower value) with
        | some env => some env
        | none => some "unknown"
    | none => classifySpecLabelKeys valueMap labels rest

/-- Modelled from the claim's words (C5): Classify as the claim literally
describes it (see `classifySpecLabelKeys`). -/
def classifySpecOrder (c : EnvironmentClassifier) (name : String)
    (labels : List (String × String)) : String :=
  match classifySpecLabelKeys c.labelValueMap labels c.labelKeys with
  | some env => env
  | none =>
    let lowerName := strToLower name
    if c.productionNameContains.any (fun needle => strContains lowerName needle) then
      "production"
    else if lowerName ∈ c.systemNamespaces then "system"
    else "nonprod"

/-- Modelled from the claim's words for C5 as amended (non-empty label keys
and non-empty needles only), stated independently of the source's loop
structure, for comparison with the source's Classify. -/
def classifyAmendedSpec (c : EnvironmentClassifier) (name : String)
    (labels : List (String × String)) : String :=
  match (c.labelKeys.filter (fun k => k ≠ "")).find?
      (fun key => ((mapLookup labels key).getD "") ≠ "") with
  | some key =>
    (mapLookup c.labelValueMap
      (strToLower ((mapLookup labels key).getD ""))).getD "unknown"
  | none =>
    if (c.productionNameContains.filter (fun n => n ≠ "")).any
        (fun needle => strContains (strToLower name) needle) then "production"
    else if strToLower name ∈ c.systemNamespaces then "system"
    else "nonprod"

/-- Classifier configuration exhibiting the gap between the source and the
claim's literal wording: an empty configured label key and an empty
configured needle. -/
def cfgEmptyKey : ClassifierConfig :=
  { LabelKeys := [""]
    ProductionLabelValues := ["prod"]
    NonProdLabelValues := []
    SystemLabelValues := []
    ProductionNameContains := [""]
    SystemNamespaces := [] }

/-! ## Node price lookup (NewNodePriceLookup / Price) -/

/-- NodePriceLookup: normalized instance-type prices and the default. -/
structure NodePriceLookup where
  prices : List (String × Rat)
  defaultCost : Rat
deriving DecidableEq, Repr

/-- NewNodePriceLookup: entries with an empty key or a negative price are
dropped; kept keys are lower-cased. -/
def NewNodePriceLookup (prices : List (String × Rat)) (defaultCost : Rat) :
    NodePriceLookup :=
  { prices := prices.foldl
      (fun m kv => if kv.1 = "" ∨ kv.2 < 0 then m
        else mapInsert m (strToLower kv.1) kv.2) []
    defaultCost := defaultCost }

/-- Price with a possibly-nil receiver (`n == nil` in Go returns 0). -/
def NodePriceLookup.Price (n : Option NodePriceLookup)
    (instanceType : String) : Rat :=
  match n with
  | none => 0
  | some lookup =>
    match mapLookup lookup.prices (strToLower instanceType) with
    | some price => price
    | none => lookup.defaultCost

/-! ## Snapshot builder (the second file of the snapshot package) -/

/-- Builder: cluster id, classifier and (possibly absent) price lookup. -/
structure Builder where
  clusterID : String
  classifier : EnvironmentClassifier
  prices : Option NodePriceLookup

/-- NewBuilder. -/
def NewBuilder (clusterID : String) (classifier : EnvironmentClassifier)
    (prices : Option NodePriceLookup) : Builder :=
  { clusterID := clusterID, classifier := classifier, prices := prices }

/-- skipPod: nil reference, unbound pod, deletion marker, or terminal phase. -/
def skipPod (pod : Option PodInfo) : Bool :=
  match pod with
  | none => true
  | some p =>
    p.nodeName = "" || p.deleted || p.phase = "Succeeded" || p.phase = "Failed"

/-- sumPodRequests: requests summed over regular, init and ephemeral
containers, as `(cpuMilli, memoryBytes)`. -/
def sumPodRequests (pod : PodInfo) : Int × Int :=
  let regular := pod.containers.foldl
    (fun acc c => (acc.1 + c.cpuMilli, acc.2 + c.memoryBytes)) ((0 : Int), (0 : Int))
  let withInit := pod.initContainers.foldl
    (fun acc c => (acc.1 + c.cpuMilli, acc.2 + c.memoryBytes)) regular
  pod.ephemeralContainers.foldl
    (fun acc c => (acc.1 + c.cpuMilli, acc.2 + c.memoryBytes)) withInit

/-- detectInstanceType: first non-empty value among the well-known
instance-type labels, in priority order. -/
def detectInstanceType (labels : List (String × String)) : String :=
  detectInstanceTypeLoop labels
    ["node.kubernetes.io/instance-type",
     "beta.kubernetes.io/instance-type",
     "node.k8s.amazonaws.com/instance-type"]
where
  detectInstanceTypeLoop (labels : List (String × String)) :
      List String → String
    | [] => ""
    | key :: rest =>
      let v := (mapLookup labels key).getD ""
      if v ≠ "" then v else detectInstanceTypeLoop labels rest

/-- formatTaints: "key:effect" or "key=value:effect", sorted ascending. -/
def formatTaints (taints : List Taint) : List String :=
  sortStrings (taints.map fun t =>
    if t.value = "" then t.key ++ ":" ++ t.effect
    else t.key ++ "=" ++ t.value ++ ":" ++ t.effect)

/-- nodeStatus: first Ready condition decides; absent means Unknown. -/
def nodeStatus (conditions : List NodeCondition) : String :=
  match conditions with
  | [] => "Unknown"
  | c :: rest =>
    if c.condType = "Ready" then
      if c.status = "True" then "Ready" else "NotReady"
    else nodeStatus rest

/-- nodeUnderPressure: any disk/memory/PID pressure condition that is true. -/
def nodeUnderPressure (conditions : List NodeCondition) : Bool :=
  conditions.any fun c =>
    (c.condType = "DiskPressure" || c.condType = "MemoryPressure" ||
      c.condType = "PIDPressure") && c.status = "True"

/-- clampPercent (the builder's terminal clamping). -/
def clampPercent (value : Rat) : Rat :=
  if value < 0 then 0
  else if value > 100 then 100
  else value

/-- The nodeAggregate of the builder: the seeded record plus the running
pod count and usage accumulators. -/
structure nodeAggregate where
  record : NodeCostRecord
  podCount : Int
  cpuUsageMilli : Int
  memoryUsageBytes : Int
deriving DecidableEq, Repr

/-- The namespace record seeded for a declared namespace object (first loop
of Build); Go-zero values for every counter. -/
def seedNamespaceRecord (b : Builder) (ns : NamespaceInfo) :
    NamespaceCostRecord :=
  { ClusterID := b.clusterID
    Namespace := ns.name
    HourlyCost := 0
    PodCount := 0
    CPURequestMilli := 0
    MemoryRequestBytes := 0
    CPUUsageMilli := 0
    MemoryUsageBytes := 0
    Labels := ns.labels
    Environment := b.classifier.Classify ns.name ns.labels }

/-- First loop of Build: seed one record per declared namespace. -/
def seedNamespaces (b : Builder) (namespaces : List NamespaceInfo) :
    StrMap NamespaceCostRecord :=
  namespaces.foldl (fun m ns => m.insert ns.name (seedNamespaceRecord b ns))
    StrMap.empty

/-- Second loop of Build, one node: the seeded NodeCostRecord (percent
fields at their Go zero value, filled in at finalization). -/
def seedNode (b : Builder) (node : NodeInfo) : nodeAggregate :=
  let instanceType := detectInstanceType node.labels
  { record :=
      { ClusterID := b.clusterID
        NodeName := node.name
        HourlyCost := NodePriceLookup.Price b.prices instanceType
        CPUUsagePercent := 0
        MemoryUsagePercent := 0
        CPUAllocatableMilli := node.allocatableCPUMilli
        MemoryAllocatableBytes := node.allocatableMemoryBytes
        PodCount := 0
        Status := nodeStatus node.conditions
        IsUnderPressure := nodeUnderPressure node.conditions
        InstanceType := instanceType
        Labels := node.labels
        Taints := formatTaints node.taints }
    podCount := 0
    cpuUsageMilli := 0
    memoryUsageBytes := 0 }

/-- Second loop of Build: node records plus the accumulated
totalNodeCost (summed over every listed node, placement-independent). -/
def seedNodes (b : Builder) (nodes : List NodeInfo) :
    StrMap nodeAggregate × Rat :=
  nodes.foldl
    (fun acc node =>
      let agg := seedNode b node
      (acc.1.insert node.name agg, acc.2 + agg.record.HourlyCost))
    (StrMap.empty, 0)

/-- Mutable state of Build's pod loop: the two record maps and the four
cluster-wide counters. -/
structure BuildState where
  nsRecords : StrMap NamespaceCostRecord
  nodeRecords : StrMap nodeAggregate
  clusterCPUReq : Int
  clusterCPUUsage : Int
  clusterMemReq : Int
  clusterMemUsage : Int

/-- ensureNamespace: the existing record, or the lazily created one (name
classified with nil labels) for a pod whose namespace object was absent.
The Go function also writes the created record into the map; here the pod
step always writes the updated record back, with the same net effect. -/
def ensureNamespace (m : StrMap NamespaceCostRecord) (clusterID : String)
    (name : String) (classifier : EnvironmentClassifier) :
    NamespaceCostRecord :=
  match m.find name with
  | some ns => ns
  | none =>
    { ClusterID := clusterID
      Namespace := name
      HourlyCost := 0
      PodCount := 0
      CPURequestMilli := 0
      MemoryRequestBytes := 0
      CPUUsageMilli := 0
      MemoryUsageBytes := 0
      Labels := []
      Environment := classifier.Classify name [] }

/-- One iteration of Build's pod loop. -/
def podStep (b : Builder) (usage : List (String × PodUsage)) (s : BuildState)
    (pod : Option PodInfo) : BuildState :=
  if skipPod pod then s
  else
    match pod with
    | none => s
    | some p =>
      let ns0 := ensureNamespace s.nsRecords b.clusterID p.ns b.classifier
      let req := sumPodRequests p
      let cpuReq := req.1
      let memReq := req.2
      let key := p.ns ++ "/" ++ p.name
      let podUsage := (mapLookup usage key).getD
        { CPUUsageMilli := 0, MemoryUsageBytes := 0 }
      let cpuUsage := if podUsage.CPUUsageMilli = 0 then cpuReq
        else podUsage.CPUUsageMilli
      let memUsage := if podUsage.MemoryUsageBytes = 0 then memReq
        else podUsage.MemoryUsageBytes
      match s.nodeRecords.find p.nodeName with
      | some agg =>
        let agg1 : nodeAggregate :=
          { agg with
            podCount := agg.podCount + 1
            cpuUsageMilli := agg.cpuUsageMilli + cpuUsage
            memoryUsageBytes := agg.memoryUsageBytes + memUsage }
        let allocatableCPU := agg.record.CPUAllocatableMilli
        let costDelta : Rat :=
          if 0 < allocatableCPU ∧ 0 < agg.record.HourlyCost ∧ 0 < cpuReq then
            let share := (cpuReq : Rat) / (allocatableCPU : Rat)
            (if share > 1 then 1 else share) * agg.record.HourlyCost
          else 0
        let ns1 : NamespaceCostRecord :=
          { ns0 with
            PodCount := ns0.PodCount + 1
            CPURequestMilli := ns0.CPURequestMilli + cpuReq
            MemoryRequestBytes := ns0.MemoryRequestBytes + memReq
            CPUUsageMilli := ns0.CPUUsageMilli + cpuUsage
            MemoryUsageBytes := ns0.MemoryUsageBytes + memUsage
            HourlyCost := ns0.HourlyCost + costDelta }
        { nsRecords := s.nsRecords.insert p.ns ns1
          nodeRecords := s.nodeRecords.insert p.nodeName agg1
          clusterCPUReq := s.clusterCPUReq + cpuReq
          clusterCPUUsage := s.clusterCPUUsage + cpuUsage
          clusterMemReq := s.clusterMemReq + memReq
          clusterMemUsage := s.clusterMemUsage + memUsage }
      | none =>
        let ns1 : NamespaceCostRecord :=
          { ns0 with
            PodCount := ns0.PodCount + 1
            CPURequestMilli := ns0.CPURequestMilli + cpuReq
            MemoryRequestBytes := ns0.MemoryRequestBytes + memReq
            CPUUsageMilli := ns0.CPUUsageMilli + cpuUsage
            MemoryUsageBytes := ns0.MemoryUsageBytes + memUsage }
        { nsRecords := s.nsRecords.insert p.ns ns1
          nodeRecords := s.nodeRecords
          clusterCPUReq := s.clusterCPUReq + cpuReq
          clusterCPUUsage := s.clusterCPUUsage + cpuUsage
          clusterMemReq := s.clusterMemReq + memReq
          clusterMemUsage := s.clusterMemUsage + memUsage }

/-- Finalization of one node record: percents computed and clamped only
for positive allocatables, pod count set. -/
def finalizeNode (agg : nodeAggregate) : NodeCostRecord :=
  let rec1 :=
    if 0 < agg.record.CPUAllocatableMilli then
      { agg.record with
        CPUUsagePercent := clampPercent
          ((agg.cpuUsageMilli : Rat) / (agg.record.CPUAllocatableMilli : Rat) * 100) }
    else agg.record
  let rec2 :=
    if 0 < agg.record.MemoryAllocatableBytes then
      { rec1 with
        MemoryUsagePercent := clampPercent
          ((agg.memoryUsageBytes : Rat) / (agg.record.MemoryAllocatableBytes : Rat) * 100) }
    else rec1
  { rec2 with PodCount := agg.podCount }

/-- Build (the snapshot package): seed namespaces and nodes, run the pod
loop, finalize, sort both output lists by name, and assemble the snapshot. -/
def Builder.Build (b : Builder) (nodes : List NodeInfo)
    (namespaces : List NamespaceInfo) (pods : List (Option PodInfo))
    (usage : List (String × PodUsage)) (generatedAt : Int) : Snapshot :=
  let nsSeed := seedNamespaces b namespaces
  let nodeSeed := seedNodes b nodes
  let final := pods.foldl (podStep b usage)
    { nsRecords := nsSeed
      nodeRecords := nodeSeed.1
      clusterCPUReq := 0
      clusterCPUUsage := 0
      clusterMemReq := 0
      clusterMemUsage := 0 }
  { Timestamp := generatedAt
    Namespaces := (sortedKeyList final.nsRecords.keys).filterMap final.nsRecords.find
    Nodes := ((sortedKeyList final.nodeRecords.keys).filterMap
      final.nodeRecords.find).map finalizeNode
    Resources :=
      { ClusterID := b.clusterID
        CPUUsageMilliTotal := final.clusterCPUUsage
        CPURequestMilliTotal := final.clusterCPUReq
        MemoryUsageBytesTotal := final.clusterMemUsage
        MemoryRequestBytesTotal := final.clusterMemReq
        TotalNodeHourlyCost := nodeSeed.2 } }

/-- The usage value the pod loop adds for one pod's CPU (lookup with
per-resource fallback to the request); used to state the loop's step
algebraically. -/
def podCpuUsage (usage : List (String × PodUsage)) (p : PodInfo) : Int :=
  if ((mapLookup usage (p.ns ++ "/" ++ p.name)).getD
      { CPUUsageMilli := 0, MemoryUsageBytes := 0 }).CPUUsageMilli = 0 then
    (sumPodRequests p).1
  else ((mapLookup usage (p.ns ++ "/" ++ p.name)).getD
    { CPUUsageMilli := 0, MemoryUsageBytes := 0 }).CPUUsageMilli

/-- Memory counterpart of `podCpuUsage`. -/
def podMemUsage (usage : List (String × PodUsage)) (p : PodInfo) : Int :=
  if ((mapLookup usage (p.ns ++ "/" ++ p.name)).getD
      { CPUUsageMilli := 0, MemoryUsageBytes := 0 }).MemoryUsageBytes = 0 then
    (sumPodRequests p).2
  else ((mapLookup usage (p.ns ++ "/" ++ p.name)).getD
    { CPUUsageMilli := 0, MemoryUsageBytes := 0 }).MemoryUsageBytes

/-- The cost share one pod attributes to its namespace, given the node
record map (zero when the pod's node has no record). -/
def podCostDelta (m : StrMap nodeAggregate) (p : PodInfo) : Rat :=
  match m.find p.nodeName with
  | some agg =>
    if 0 < agg.record.CPUAllocatableMilli ∧ 0 < agg.record.HourlyCost ∧
        0 < (sumPodRequests p).1 then
      (if ((sumPodRequests p).1 : Rat) / (agg.record.CPUAllocatableMilli : Rat) > 1
        then 1
        else ((sumPodRequests p).1 : Rat) / (agg.record.CPUAllocatableMilli : Rat)) *
        agg.record.HourlyCost
    else 0
  | none => 0

/-- The namespace record the pod loop writes for one pod. -/
def podNsRecord (b : Builder) (m : StrMap NamespaceCostRecord)
    (nodeM : StrMap nodeAggregate) (usage : List (String × PodUsage))
    (p : PodInfo) : NamespaceCostRecord :=
  let ns0 := ensureNamespace m b.clusterID p.ns b.classifier
  { ns0 with
    PodCount := ns0.PodCount + 1
    CPURequestMilli := ns0.CPURequestMilli + (sumPodRequests p).1
    MemoryRequestBytes := ns0.MemoryRequestBytes + (sumPodRequests p).2
    CPUUsageMilli := ns0.CPUUsageMilli + podCpuUsage usage p
    MemoryUsageBytes := ns0.MemoryUsageBytes + podMemUsage usage p
    HourlyCost := ns0.HourlyCost + podCostDelta nodeM p }

/-- The node record map after the pod loop processes one pod. -/
def podNodeMap (m : StrMap nodeAggregate) (usage : List (String × PodUsage))
    (p : PodInfo) : StrMap nodeAggregate :=
  match m.find p.nodeName with
  | some agg =>
    m.insert p.nodeName
      { agg with
        podCount := agg.podCount + 1
        cpuUsageMilli := agg.cpuUsageMilli + podCpuUsage usage p
        memoryUsageBytes := agg.memoryUsageBytes + podMemUsage usage p }
  | none => m

/-! ## Usage collector (the collector package) -/

/-- Usage of one container as the collector reads it. -/
structure ContainerUsage where
  cpuMilli : Int
  memBytes : Int
deriving DecidableEq, Repr

/-- One PodMetrics item: namespace, name and per-container usage. -/
structure PodMetricsItem where
  ns : String
  name : String
  containers : List ContainerUsage
deriving DecidableEq, Repr

/-- MetricsCollector state: whether a pods metrics client is configured
(`c.pods != nil`) and the cached last successful result. -/
structure MetricsCollector where
  podsConfigured : Bool
  last : Option (List (String × PodUsage))
deriving DecidableEq, Repr

/-- The success path's rebuild of the result map: per pod, usage summed
over containers, keyed by "namespace/name". -/
def collectUsageMap (items : List PodMetricsItem) : List (String × PodUsage) :=
  items.foldl
    (fun result m =>
      let sums := m.containers.foldl
        (fun acc c => (acc.1 + c.cpuMilli, acc.2 + c.memBytes)) ((0 : Int), (0 : Int))
      mapInsert result (m.ns ++ "/" ++ m.name)
        { CPUUsageMilli := sums.1, MemoryUsageBytes := sums.2 })
    []

/-- CollectPodMetrics.  The single metrics query is an external effect; its
outcome is passed in as an `Except`.  The function returns the collector's
new state, the returned map (or none) and the returned error (or none). -/
def CollectPodMetrics (c : MetricsCollector)
    (outcome : Except String (List PodMetricsItem)) :
    MetricsCollector × Option (List (String × PodUsage)) × Option String :=
  if c.podsConfigured = false then
    (c, none, some "metrics client not configured")
  else
    match outcome with
    | Except.error e =>
      match c.last with
      | none => (c, none, some ("list pod metrics: " ++ e))
      | some cached => (c, some cached, some ("list pod metrics: " ++ e))
    | Except.ok items =>
      let result := collectUsageMap items
      ({ c with last := some result }, some result, none)

/-! ## Concrete fixtures used by witnesses and counterexamples -/

/-- The end-to-end scenario's classifier configuration (the builder test). -/
def scenarioClassifier : EnvironmentClassifier := NewEnvironmentClassifier
  { LabelKeys := ["clustercost.io/environment"]
    ProductionLabelValues := ["prod"]
    NonProdLabelValues := []
    SystemLabelValues := []
    ProductionNameContains := ["prod"]
    SystemNamespaces := ["kube-system"] }

/-- The end-to-end scenario's price map: m6a.large at 0.1/hr, default 0.2. -/
def scenarioPrices : NodePriceLookup :=
  NewNodePriceLookup [("m6a.large", 1/10)] (1/5)

/-- The end-to-end scenario's builder. -/
def scenarioBuilder : Builder :=
  NewBuilder "cluster-1" scenarioClassifier (some scenarioPrices)

/-- node-1: 2000m CPU and 4Gi memory allocatable, instance type m6a.large,
Ready. -/
def scenarioNode : NodeInfo :=
  { name := "node-1"
    labels := [("node.kubernetes.io/instance-type", "m6a.large")]
    taints := []
    allocatableCPUMilli := 2000
    allocatableMemoryBytes := 4 * 1024 * 1024 * 1024
    conditions := [{ condType := "Ready", status := "True" }] }

/-- The payments namespace, labeled production. -/
def scenarioNsProd : NamespaceInfo :=
  { name := "payments", labels := [("clustercost.io/environment", "prod")] }

/-- The sandbox namespace, unlabeled. -/
def scenarioNsNonProd : NamespaceInfo := { name := "sandbox", labels := [] }

/-- payments/api-0: requests 500m CPU and 1Gi memory, running on node-1. -/
def scenarioPodProd : PodInfo :=
  { name := "api-0", ns := "payments", nodeName := "node-1"
    containers := [{ cpuMilli := 500, memoryBytes := 1024 * 1024 * 1024 }]
    initContainers := [], ephemeralContainers := []
    deleted := false, phase := "Running" }

/-- sandbox/worker-0: requests 250m CPU and 512Mi memory, running on
node-1, with no usage sample. -/
def scenarioPodNonProd : PodInfo :=
  { name := "worker-0", ns := "sandbox", nodeName := "node-1"
    containers := [{ cpuMilli := 250, memoryBytes := 512 * 1024 * 1024 }]
    initContainers := [], ephemeralContainers := []
    deleted := false, phase := "Running" }

/-- Measured usage: payments/api-0 at 400m CPU and 800Mi memory; no entry
for the sandbox pod. -/
def scenarioUsage : List (String × PodUsage) :=
  [("payments/api-0", { CPUUsageMilli := 400, MemoryUsageBytes := 800 * 1024 * 1024 })]

/-- The snapshot the scenario's Build returns. -/
def scenarioSnap : Snapshot :=
  scenarioBuilder.Build [scenarioNode] [scenarioNsProd, scenarioNsNonProd]
    [some scenarioPodProd, some scenarioPodNonProd] scenarioUsage 123

/-- The build state right before the scenario's pod loop. -/
def scenarioState : BuildState :=
  { nsRecords := seedNamespaces scenarioBuilder [scenarioNsProd, scenarioNsNonProd]
    nodeRecords := (seedNodes scenarioBuilder [scenarioNode]).1
    clusterCPUReq := 0
    clusterCPUUsage := 0
    clusterMemReq := 0
    clusterMemUsage := 0 }

/-- An overcommitted node: 100m CPU allocatable, zero memory allocatable. -/
def overNode : NodeInfo :=
  { name := "over", labels := [], taints := [], allocatableCPUMilli := 100
    allocatableMemoryBytes := 0, conditions := [] }

/-- A pod on the overcommitted node with a 250m CPU request (which also
becomes its usage, having no metrics entry). -/
def overPod : PodInfo :=
  { name := "p", ns := "d", nodeName := "over"
    containers := [{ cpuMilli := 250, memoryBytes := 0 }]
    initContainers := [], ephemeralContainers := []
    deleted := false, phase := "Running" }

/-- The snapshot of the overcommitted-node build. -/
def overSnap : Snapshot := scenarioBuilder.Build [overNode] [] [some overPod] [] 0

/-- The single node record of `overSnap`: CPU usage percent clamped to
exactly 100, memory percent left at 0 for the zero allocatable. -/
def overRecord : NodeCostRecord :=
  { ClusterID := "cluster-1", NodeName := "over", HourlyCost := 1/5
    CPUUsagePercent := 100, MemoryUsagePercent := 0, CPUAllocatableMilli := 100
    MemoryAllocatableBytes := 0, PodCount := 1, Status := "Unknown"
    IsUnderPressure := false, InstanceType := "", Labels := [], Taints := [] }

/-- The record lazily created for the undeclared namespace d of `overPod`
when the declared namespace list is empty. -/
def ghostRecord : NamespaceCostRecord :=
  { ClusterID := "cluster-1", Namespace := "d", HourlyCost := 0
    PodCount := 1, CPURequestMilli := 250, MemoryRequestBytes := 0
    CPUUsageMilli := 250, MemoryUsageBytes := 0, Labels := []
    Environment := "nonprod" }

/-- Two namespace objects sharing one name with different labels: input a
lister never produces, on which Build is order-sensitive. -/
def nsDupA1 : NamespaceInfo := { name := "a", labels := [("env", "1")] }

/-- Duplicate-name partner of `nsDupA1`. -/
def nsDupA2 : NamespaceInfo := { name := "a", labels := [("env", "2")] }

/-- Two node objects sharing one name with different labels. -/
def nodeDup1 : NodeInfo :=
  { name := "n", labels := [("x", "1")], taints := []
    allocatableCPUMilli := 1000, allocatableMemoryBytes := 0, conditions := [] }

/-- Duplicate-name partner of `nodeDup1`. -/
def nodeDup2 : NodeInfo :=
  { name := "n", labels := [("x", "2")], taints := []
    allocatableCPUMilli := 1000, allocatableMemoryBytes := 0, conditions := [] }

/-- A builder with default classification and no price table. -/
def plainBuilder : Builder :=
  NewBuilder "c"
    (NewEnvironmentClassifier
      { LabelKeys := [], ProductionLabelValues := [], NonProdLabelValues := []
        SystemLabelValues := [], ProductionNameContains := []
        SystemNamespaces := [] })
    none

/-- One PodMetrics item: pod-a of namespace default using 400m CPU. -/
def podAItem : PodMetricsItem :=
  { ns := "default", name := "pod-a"
    containers := [{ cpuMilli := 400, memBytes := 0 }] }

/-- A configured collector with no cached result yet. -/
def collectorFresh : MetricsCollector :=
  { podsConfigured := true, last := none }

/-- A configured collector holding one cached entry. -/
def cachedCollector : MetricsCollector :=
  { podsConfigured := true
    last := some [("default/pod-a", { CPUUsageMilli := 400, MemoryUsageBytes := 0 })] }

/-! ## Helper lemmas shared across the claims -/

theorem strToLower_eq_empty_iff (s : String) : strToLower s = "" ↔ s = "" := by
  cases s with
  | mk data =>
    constructor
    · intro h
      have hd : data.map Char.toLower = [] := by
        have := congrArg String.data h
        simpa [strToLower] using this
      have : data = [] := List.map_eq_nil_iff.1 hd
      simp [this]
    · intro h
      have : data = [] := by
        have := congrArg String.data h
        simpa using this
      simp [strToLower, this]

theorem mapLookup_eq_none {α : Type} (m : List (String × α)) (q : String)
    (h : ∀ kv ∈ m, kv.1 ≠ q) : mapLookup m q = none := by
  induction m with
  | nil => rfl
  | cons hd tl ih =>
    obtain ⟨k0, v0⟩ := hd
    have hk0 : k0 ≠ q := h (k0, v0) (List.mem_cons_self _ _)
    rw [mapLookup, if_neg hk0]
    exact ih fun kv hkv => h kv (List.mem_cons_of_mem _ hkv)

theorem newNodePriceLookup_mem (m : List (String × Rat)) (d : Rat) :
    ∀ kv ∈ (NewNodePriceLookup m d).prices, kv.1 ≠ "" ∧ 0 ≤ kv.2 := by
  suffices h : ∀ (l : List (String × Rat)) (acc : List (String × Rat)),
      (∀ kv ∈ acc, kv.1 ≠ "" ∧ 0 ≤ kv.2) →
      ∀ kv ∈ l.foldl
        (fun m kv => if kv.1 = "" ∨ kv.2 < 0 then m
          else mapInsert m (strToLower kv.1) kv.2) acc,
        kv.1 ≠ "" ∧ 0 ≤ kv.2 by
    intro kv hkv
    exact h m [] (by simp) kv hkv
  intro l
  induction l with
  | nil =>
    intro acc hacc kv hkv
    exact hacc kv (by simpa using hkv)
  | cons x xs ih =>
    intro acc hacc kv hkv
    rw [List.foldl_cons] at hkv
    by_cases hbad : x.1 = "" ∨ x.2 < 0
    · rw [if_pos hbad] at hkv
      exact ih acc hacc kv hkv
    · rw [if_neg hbad] at hkv
      push_neg at hbad
      refine ih _ ?_ kv hkv
      intro kv2 hkv2
      obtain ⟨q, w⟩ := kv2
      rcases mem_mapInsert acc (strToLower x.1) q x.2 w hkv2 with h1 | h1
      · obtain ⟨hq, hw⟩ := Prod.mk.injEq .. ▸ h1
        subst hq hw
        exact ⟨fun hc => hbad.1 ((strToLower_eq_empty_iff x.1).1 hc), hbad.2⟩
      · exact hacc (q, w) h1

theorem priceFold_keys (P : String → Prop) :
    ∀ (l acc : List (String × Rat)),
      (∀ kv ∈ acc, P kv.1) → (∀ kv ∈ l, P (strToLower kv.1)) →
      ∀ kv ∈ l.foldl (fun m kv => if kv.1 = "" ∨ kv.2 < 0 then m
          else mapInsert m (strToLower kv.1) kv.2) acc, P kv.1 := by
  intro l
  induction l with
  | nil =>
    intro acc hacc _ kv hkv
    exact hacc kv (by simpa using hkv)
  | cons x xs ih =>
    intro acc hacc hl kv hkv
    rw [List.foldl_cons] at hkv
    refine ih _ ?_ (fun kv0 hkv0 => hl kv0 (List.mem_cons_of_mem _ hkv0)) kv hkv
    intro kv2 hkv2
    by_cases hbad : x.1 = "" ∨ x.2 < 0
    · rw [if_pos hbad] at hkv2
      exact hacc kv2 hkv2
    · rw [if_neg hbad] at hkv2
      obtain ⟨q, w⟩ := kv2
      rcases mem_mapInsert acc (strToLower x.1) q x.2 w hkv2 with h1 | h1
      · obtain ⟨hq, hw⟩ := Prod.mk.injEq .. ▸ h1
        subst hq
        exact hl x (List.mem_cons_self _ _)
      · exact hacc (q, w) h1

theorem newNodePriceLookup_keys_orig (m : List (String × Rat)) (d : Rat) :
    ∀ kv ∈ (NewNodePriceLookup m d).prices,
      ∃ kv0 ∈ m, kv.1 = strToLower kv0.1 := by
  intro kv hkv
  exact priceFold_keys (fun k => ∃ kv0 ∈ m, k = strToLower kv0.1) m []
    (by simp) (fun kv0 hkv0 => ⟨kv0, hkv0, rfl⟩) kv hkv

/-! ## Claim theorems -/

/-- C6: price lookup behaviour.  Construction keeps no entry with an empty
key or a negative price; `Price` depends on the instance type only through
its lower-casing (so `Price "M6A.LARGE" = Price "m6a.large"` on every
configured map); the empty instance type gets the configured default; a nil
lookup yields 0; every returned price is the default or non-negative, so a
negative configured price is never returned; and an unmatched instance
type — one whose lower-casing differs from every configured key's — gets
the configured default. -/
theorem c6_price_lookup :
    (∀ (m : List (String × Rat)) (d : Rat),
      ∀ kv ∈ (NewNodePriceLookup m d).prices, kv.1 ≠ "" ∧ 0 ≤ kv.2) ∧
    (∀ (m : List (String × Rat)) (d : Rat) (s t : String),
      strToLower s = strToLower t →
      NodePriceLookup.Price (some (NewNodePriceLookup m d)) s =
        NodePriceLookup.Price (some (NewNodePriceLookup m d)) t) ∧
    (∀ (m : List (String × Rat)) (d : Rat),
      NodePriceLookup.Price (some (NewNodePriceLookup m d)) "M6A.LARGE" =
        NodePriceLookup.Price (some (NewNodePriceLookup m d)) "m6a.large") ∧
    (∀ (m : List (String × Rat)) (d : Rat),
      NodePriceLookup.Price (some (NewNodePriceLookup m d)) "" = d) ∧
    (∀ s : String, NodePriceLookup.Price none s = 0) ∧
    (∀ (m : List (String × Rat)) (d : Rat) (s : String),
      NodePriceLookup.Price (some (NewNodePriceLookup m d)) s = d ∨
        0 ≤ NodePriceLookup.Price (some (NewNodePriceLookup m d)) s) ∧
    (∀ (m : List (String × Rat)) (d : Rat) (s : String),
      (∀ kv ∈ m, strToLower kv.1 ≠ strToLower s) →
      NodePriceLookup.Price (some (NewNodePriceLookup m d)) s = d) := by
  have hmem := newNodePriceLookup_mem
  have hlower : ∀ (m : List (String × Rat)) (d : Rat) (s t : String),
      strToLower s = strToLower t →
      NodePriceLookup.Price (some (NewNodePriceLookup m d)) s =
        NodePriceLookup.Price (some (NewNodePriceLookup m d)) t := by
    intro m d s t hst
    simp only [NodePriceLookup.Price, hst]
  refine ⟨hmem, hlower, ?_, ?_, ?_, ?_, ?_⟩
  · intro m d
    exact hlower m d "M6A.LARGE" "m6a.large" (by decide)
  · intro m d
    have hnone : mapLookup (NewNodePriceLookup m d).prices (strToLower "") = none := by
      apply mapLookup_eq_none
      intro kv hkv
      have h1 := (hmem m d kv hkv).1
      intro hc
      exact h1 (by simpa [strToLower] using hc)
    simp only [NodePriceLookup.Price, hnone]
    rfl
  · intro s
    rfl
  · intro m d s
    cases hl : mapLookup (NewNodePriceLookup m d).prices (strToLower s) with
    | none => exact Or.inl (by simp [NodePriceLookup.Price, hl]; rfl)
    | some price =>
      refine Or.inr ?_
      have h2 := (hmem m d _ (mapLookup_mem _ _ _ hl)).2
      simpa [NodePriceLookup.Price, hl] using h2
  · intro m d s h
    have hnone : mapLookup (NewNodePriceLookup m d).prices (strToLower s) =
        none := by
      apply mapLookup_eq_none
      intro kv hkv
      obtain ⟨kv0, hkv0, heq⟩ := newNodePriceLookup_keys_orig m d kv hkv
      rw [heq]
      exact h kv0 hkv0
    simp only [NodePriceLookup.Price, hnone]
    rfl

/-- C6 witness: the contract evaluated on the concrete one-entry price map
of the end-to-end test, including the unmatched instance type r5.xlarge
falling back to the configured default. -/
theorem c6_price_lookup_witness :
    ("m6a.large" ≠ "" ∧ 0 ≤ (1 : Rat)/10) ∧
    NodePriceLookup.Price
      (some (NewNodePriceLookup [("M6A.Large", 1/10)] (1/5))) "m6A.lARge" =
      NodePriceLookup.Price
        (some (NewNodePriceLookup [("M6A.Large", 1/10)] (1/5))) "m6a.large" ∧
    NodePriceLookup.Price
      (some (NewNodePriceLookup [("m6a.large", 1/10)] (1/5))) "r5.xlarge" =
      1/5 :=
  ⟨c6_price_lookup.1 [("m6a.large", 1/10)] (1/5) ("m6a.large", 1/10)
      (by with_unfolding_all decide),
    c6_price_lookup.2.1 [("M6A.Large", 1/10)] (1/5) "m6A.lARge" "m6a.large"
      (by decide),
    c6_price_lookup.2.2.2.2.2.2 [("m6a.large", 1/10)] (1/5) "r5.xlarge"
      (by with_unfolding_all decide)⟩

/-- C7: CollectPodMetrics error contract.  With no configured source it
returns no data and the configuration error; on success it caches and
returns the freshly computed map with no error; on failure it returns the
cached map together with the non-nil error when a cache exists (so a
success followed by a failure returns the success's map plus a non-nil
error) and no data with the wrapped error otherwise. -/
theorem c7_collect_pod_metrics_errors :
    (∀ (c : MetricsCollector) (o : Except String (List PodMetricsItem)),
      c.podsConfigured = false →
      CollectPodMetrics c o = (c, none, some "metrics client not configured")) ∧
    (∀ (c : MetricsCollector) (items : List PodMetricsItem),
      c.podsConfigured = true →
      CollectPodMetrics c (Except.ok items) =
        ({ c with last := some (collectUsageMap items) },
          some (collectUsageMap items), none)) ∧
    (∀ (c : MetricsCollector) (e : String) (m : List (String × PodUsage)),
      c.podsConfigured = true → c.last = some m →
      CollectPodMetrics c (Except.error e) =
        (c, some m, some ("list pod metrics: " ++ e))) ∧
    (∀ (c : MetricsCollector) (e : String),
      c.podsConfigured = true → c.last = none →
      CollectPodMetrics c (Except.error e) =
        (c, none, some ("list pod metrics: " ++ e))) ∧
    (∀ (c : MetricsCollector) (items : List PodMetricsItem) (e : String),
      c.podsConfigured = true →
      (CollectPodMetrics (CollectPodMetrics c (Except.ok items)).1
          (Except.error e)).2.1 =
        (CollectPodMetrics c (Except.ok items)).2.1 ∧
      (CollectPodMetrics (CollectPodMetrics c (Except.ok items)).1
          (Except.error e)).2.2 ≠ none) := by
  refine ⟨?_, ?_, ?_, ?_, ?_⟩
  · intro c o h
    simp [CollectPodMetrics, h]
  · intro c items h
    simp [CollectPodMetrics, h]
  · intro c e m h hm
    simp [CollectPodMetrics, h, hm]
  · intro c e h hm
    simp [CollectPodMetrics, h, hm]
  · intro c items e h
    simp [CollectPodMetrics, h]

/-- C7 witness: the degraded-mode continuity scenario of the spec — one
successful reading of pod-a at 400m, then a failing query that must return
the same map together with a non-nil error. -/
theorem c7_collect_pod_metrics_errors_witness :
    (CollectPodMetrics (CollectPodMetrics collectorFresh (Except.ok [podAItem])).1
        (Except.error "metrics unavailable")).2.1 =
      (CollectPodMetrics collectorFresh (Except.ok [podAItem])).2.1 ∧
    (CollectPodMetrics (CollectPodMetrics collectorFresh (Except.ok [podAItem])).1
        (Except.error "metrics unavailable")).2.2 ≠ none :=
  c7_collect_pod_metrics_errors.2.2.2.2 collectorFresh [podAItem]
    "metrics unavailable" rfl

/-- C10 (implicit): a CollectPodMetrics call that returns a non-nil error
leaves the cached last-good map unchanged — the cache is written only on
the fully successful path. -/
theorem c10_error_preserves_cache (c : MetricsCollector)
    (o : Except String (List PodMetricsItem))
    (h : (CollectPodMetrics c o).2.2 ≠ none) :
    (CollectPodMetrics c o).1.last = c.last := by
  by_cases hc : c.podsConfigured = false
  · simp [CollectPodMetrics, hc]
  · rw [Bool.not_eq_false] at hc
    cases o with
    | error e =>
      cases hl : c.last with
      | none => simp [CollectPodMetrics, hc, hl]
      | some m => simp [CollectPodMetrics, hc, hl]
    | ok items =>
      exfalso
      apply h
      simp [CollectPodMetrics, hc]

/-- C10 witness: a failing call on a collector holding a one-entry cache
keeps that cache. -/
theorem c10_error_preserves_cache_witness :
    (CollectPodMetrics cachedCollector (Except.error "boom")).1.last =
      cachedCollector.last :=
  c10_error_preserves_cache cachedCollector (Except.error "boom")
    (by with_unfolding_all decide)

theorem anyFilter_eq (l : List String) (p q : String → Bool) :
    (l.filter p).any q = l.any (fun a => p a && q a) := by
  induction l with
  | nil => rfl
  | cons x xs ih =>
    by_cases hx : p x = true
    · simp [List.filter_cons, hx, List.any_cons, ih]
    · simp only [Bool.not_eq_true] at hx
      simp [List.filter_cons, hx, List.any_cons, ih]

theorem classifyByLabelKeys_eq_spec (valueMap labels : List (String × String))
    (keys : List String) :
    classifyByLabelKeys valueMap labels keys =
      match (keys.filter (fun k => k ≠ "")).find?
          (fun key => ((mapLookup labels key).getD "") ≠ "") with
      | some key =>
        some ((mapLookup valueMap
          (strToLower ((mapLookup labels key).getD ""))).getD "unknown")
      | none => none := by
  induction keys with
  | nil => rfl
  | cons key rest ih =>
    by_cases hk : key = ""
    · subst hk
      rw [classifyByLabelKeys, if_pos rfl, ih,
        List.filter_cons_of_neg (by simp)]
    · rw [classifyByLabelKeys, if_neg hk,
        List.filter_cons_of_pos (by simp [hk])]
      cases hl : mapLookup labels key with
      | none =>
        dsimp only
        rw [ih, List.find?_cons_of_neg _ (by simp [hl])]
      | some value =>
        dsimp only
        by_cases hv : value = ""
        · rw [if_pos hv, ih, List.find?_cons_of_neg _ (by simp [hl, hv])]
        · rw [if_neg hv, List.find?_cons_of_pos _ (by simp [hl, hv])]
          dsimp only
          rw [hl]
          dsimp only [Option.getD_some]
          cases hm : mapLookup valueMap (strToLower value) with
          | none => simp [hm]
          | some env => simp [hm]

theorem classifyByLabelKeys_mem (valueMap labels : List (String × String))
    (keys : List String) (env : String)
    (h : classifyByLabelKeys valueMap labels keys = some env) :
    env = "unknown" ∨ ∃ kv ∈ valueMap, kv.2 = env := by
  induction keys with
  | nil => simp [classifyByLabelKeys] at h
  | cons key rest ih =>
    by_cases hk : key = ""
    · subst hk
      rw [classifyByLabelKeys, if_pos rfl] at h
      exact ih h
    · rw [classifyByLabelKeys, if_neg hk] at h
      cases hl : mapLookup labels key with
      | none =>
        rw [hl] at h
        dsimp only at h
        exact ih h
      | some value =>
        rw [hl] at h
        dsimp only at h
        by_cases hv : value = ""
        · rw [if_pos hv] at h
          exact ih h
        · rw [if_neg hv] at h
          cases hm : mapLookup valueMap (strToLower value) with
          | none =>
            rw [hm] at h
            dsimp only at h
            injection h with h2
            exact Or.inl h2.symm
          | some env2 =>
            rw [hm] at h
            dsimp only at h
            obtain rfl : env2 = env := by injection h
            exact Or.inr ⟨_, mapLookup_mem _ _ _ hm, rfl⟩

theorem foldl_mapInsert_env_mem (env : String) (P : String → Prop)
    (henv : P env) (vals : List String) :
    ∀ acc : List (String × String), (∀ kv ∈ acc, P kv.2) →
    ∀ kv ∈ vals.foldl (fun m v => mapInsert m (strToLower v) env) acc, P kv.2 := by
  induction vals with
  | nil =>
    intro acc hacc kv hkv
    exact hacc kv (by simpa using hkv)
  | cons x xs ih =>
    intro acc hacc kv hkv
    rw [List.foldl_cons] at hkv
    refine ih _ ?_ kv hkv
    intro kv2 hkv2
    obtain ⟨q, w⟩ := kv2
    rcases mem_mapInsert acc (strToLower x) q env w hkv2 with h1 | h1
    · obtain ⟨hq, hw⟩ := Prod.mk.injEq .. ▸ h1
      subst hw
      exact henv
    · exact hacc (q, w) h1

theorem newEnvironmentClassifier_valueMap_mem (cfg : ClassifierConfig) :
    ∀ kv ∈ (NewEnvironmentClassifier cfg).labelValueMap,
      kv.2 = "production" ∨ kv.2 = "nonprod" ∨ kv.2 = "system" := by
  intro kv hkv
  have h0 : ∀ kv2 ∈ ([] : List (String × String)),
      kv2.2 = "production" ∨ kv2.2 = "nonprod" ∨ kv2.2 = "system" := by simp
  have h1 := foldl_mapInsert_env_mem "production"
    (fun e => e = "production" ∨ e = "nonprod" ∨ e = "system")
    (Or.inl rfl) cfg.ProductionLabelValues [] h0
  have h2 := foldl_mapInsert_env_mem "nonprod"
    (fun e => e = "production" ∨ e = "nonprod" ∨ e = "system")
    (Or.inr (Or.inl rfl)) cfg.NonProdLabelValues _ h1
  have h3 := foldl_mapInsert_env_mem "system"
    (fun e => e = "production" ∨ e = "nonprod" ∨ e = "system")
    (Or.inr (Or.inr rfl)) cfg.SystemLabelValues _ h2
  exact h3 kv hkv

/-- C5 counterexample: the claim as stated is false on the code.  With an
empty configured label key, a label `"" ↦ "prod"` would, per the claim's
words (modelled by `classifySpecOrder`), decide the environment as
production; the code skips empty keys and returns nonprod.  Likewise an
empty configured needle would, per the claim, substring-match every name;
the code skips empty needles. -/
theorem c5_counterexample :
    classifySpecOrder (NewEnvironmentClassifier cfgEmptyKey) "x"
        [("", "prod")] = "production" ∧
    (NewEnvironmentClassifier cfgEmptyKey).Classify "x"
        [("", "prod")] = "nonprod" ∧
    classifySpecOrder (NewEnvironmentClassifier cfgEmptyKey) "y" [] =
      "production" ∧
    (NewEnvironmentClassifier cfgEmptyKey).Classify "y" [] = "nonprod" := by
  with_unfolding_all decide

/-- C5 as amended: Classify always returns one of the four environments,
and equals the claim's decision procedure once the label-key pass is
restricted to non-empty configured keys and the name pass to non-empty
configured needles — label resolution strictly preceding the name and
system-set heuristics, with an unrecognized label value returning unknown
immediately. -/
theorem c5_classifier_total_order :
    (∀ (cfg : ClassifierConfig) (name : String)
        (labels : List (String × String)),
      (NewEnvironmentClassifier cfg).Classify name labels ∈
        (["production", "nonprod", "system", "unknown"] : List String)) ∧
    (∀ (c : EnvironmentClassifier) (name : String)
        (labels : List (String × String)),
      c.Classify name labels = classifyAmendedSpec c name labels) := by
  constructor
  · intro cfg name labels
    rw [EnvironmentClassifier.Classify]
    cases h : classifyByLabelKeys (NewEnvironmentClassifier cfg).labelValueMap
        labels (NewEnvironmentClassifier cfg).labelKeys with
    | some env =>
      dsimp only
      rcases classifyByLabelKeys_mem _ _ _ _ h with h1 | ⟨kv, hkv, h2⟩
      · simp [h1]
      · rcases newEnvironmentClassifier_valueMap_mem cfg kv hkv with h3 | h3 | h3 <;>
          simp [← h2, h3]
    | none =>
      dsimp only
      split_ifs <;> simp
  · intro c name labels
    rw [EnvironmentClassifier.Classify, classifyAmendedSpec,
      classifyByLabelKeys_eq_spec]
    cases h : (c.labelKeys.filter (fun k => k ≠ "")).find?
        (fun key => ((mapLookup labels key).getD "") ≠ "") with
    | some key => rfl
    | none =>
      dsimp only
      rw [anyFilter_eq]

theorem ite_gt_one_eq_min (x : Rat) : (if x > 1 then 1 else x) = min 1 x := by
  rcases le_or_lt x 1 with h | h
  · rw [if_neg (not_lt.2 h), min_eq_right h]
  · rw [if_pos h, min_eq_left (le_of_lt h)]

/-- C2: proportional cost attribution, per pod.  For a non-skipped pod
whose node has a matching node record, the pod's namespace hourly cost
grows by exactly `min 1 (cpuRequest / allocatable) * nodeHourlyCost` when
the node's allocatable CPU, the node's hourly cost and the pod's CPU
request are all positive, and by nothing otherwise; the amount added never
exceeds the node's hourly cost. -/
theorem c2_cost_attribution (b : Builder) (usage : List (String × PodUsage))
    (s : BuildState) (p : PodInfo) (agg : nodeAggregate)
    (h1 : skipPod (some p) = false)
    (h2 : s.nodeRecords.find p.nodeName = some agg) :
    ((podStep b usage s (some p)).nsRecords.find p.ns).map
        (fun r => r.HourlyCost) =
      some ((ensureNamespace s.nsRecords b.clusterID p.ns b.classifier).HourlyCost +
        (if 0 < agg.record.CPUAllocatableMilli ∧ 0 < agg.record.HourlyCost ∧
            0 < (sumPodRequests p).1 then
          min 1 (((sumPodRequests p).1 : Rat) / (agg.record.CPUAllocatableMilli : Rat)) *
            agg.record.HourlyCost
        else 0)) ∧
    ((if 0 < agg.record.CPUAllocatableMilli ∧ 0 < agg.record.HourlyCost ∧
          0 < (sumPodRequests p).1 then
        min 1 (((sumPodRequests p).1 : Rat) / (agg.record.CPUAllocatableMilli : Rat)) *
          agg.record.HourlyCost
      else 0) ≤ agg.record.HourlyCost ∨
     (if 0 < agg.record.CPUAllocatableMilli ∧ 0 < agg.record.HourlyCost ∧
          0 < (sumPodRequests p).1 then
        min 1 (((sumPodRequests p).1 : Rat) / (agg.record.CPUAllocatableMilli : Rat)) *
          agg.record.HourlyCost
      else 0) = 0) := by
  constructor
  · have hskip : ¬(skipPod (some p) = true) := by simp [h1]
    rw [podStep, if_neg hskip]
    dsimp only
    rw [h2]
    dsimp only
    rw [StrMap.find_insert_self]
    rw [Option.map_some']
    dsimp only
    rw [ite_gt_one_eq_min]
  · by_cases hcond : 0 < agg.record.CPUAllocatableMilli ∧
        0 < agg.record.HourlyCost ∧ 0 < (sumPodRequests p).1
    · left
      rw [if_pos hcond]
      exact mul_le_of_le_one_left (le_of_lt hcond.2.1) (min_le_left _ _)
    · right
      rw [if_neg hcond]

/-- C2 witness: the scenario's payments pod (500m request on a 2000m node
priced 0.1/hr) adds 1/40 to its namespace's hourly cost, and the amount is
at most the node's hourly cost. -/
theorem c2_cost_attribution_witness :
    ((podStep scenarioBuilder scenarioUsage scenarioState
        (some scenarioPodProd)).nsRecords.find "payments").map
        (fun r => r.HourlyCost) = some (0 + min 1 ((500 : Rat)/2000) * (1/10)) := by
  have h := c2_cost_attribution scenarioBuilder scenarioUsage scenarioState
    scenarioPodProd (seedNode scenarioBuilder scenarioNode)
    (by with_unfolding_all decide) (by with_unfolding_all rfl)
  with_unfolding_all exact h.1

/-- C3: per-resource usage fallback.  For every non-skipped pod, the
usage added to its namespace's and the cluster's usage totals is the
looked-up PodUsage for "namespace/pod" unless that resource's value is
zero (a missing entry looks up as the zero value), in which case the pod's
own summed request for that resource is added instead — decided separately
for CPU and memory — while the request totals always grow by the pod's
summed request. -/
theorem c3_usage_fallback (b : Builder) (usage : List (String × PodUsage))
    (s : BuildState) (p : PodInfo) (h1 : skipPod (some p) = false) :
    ((podStep b usage s (some p)).nsRecords.find p.ns).map
        (fun r => r.CPUUsageMilli) =
      some ((ensureNamespace s.nsRecords b.clusterID p.ns b.classifier).CPUUsageMilli +
        (if ((mapLookup usage (p.ns ++ "/" ++ p.name)).getD
              { CPUUsageMilli := 0, MemoryUsageBytes := 0 }).CPUUsageMilli = 0 then
          (sumPodRequests p).1
        else ((mapLookup usage (p.ns ++ "/" ++ p.name)).getD
          { CPUUsageMilli := 0, MemoryUsageBytes := 0 }).CPUUsageMilli)) ∧
    ((podStep b usage s (some p)).nsRecords.find p.ns).map
        (fun r => r.MemoryUsageBytes) =
      some ((ensureNamespace s.nsRecords b.clusterID p.ns b.classifier).MemoryUsageBytes +
        (if ((mapLookup usage (p.ns ++ "/" ++ p.name)).getD
              { CPUUsageMilli := 0, MemoryUsageBytes := 0 }).MemoryUsageBytes = 0 then
          (sumPodRequests p).2
        else ((mapLookup usage (p.ns ++ "/" ++ p.name)).getD
          { CPUUsageMilli := 0, MemoryUsageBytes := 0 }).MemoryUsageBytes)) ∧
    ((podStep b usage s (some p)).nsRecords.find p.ns).map
        (fun r => r.CPURequestMilli) =
      some ((ensureNamespace s.nsRecords b.clusterID p.ns b.classifier).CPURequestMilli +
        (sumPodRequests p).1) ∧
    (podStep b usage s (some p)).clusterCPUUsage =
      s.clusterCPUUsage +
        (if ((mapLookup usage (p.ns ++ "/" ++ p.name)).getD
              { CPUUsageMilli := 0, MemoryUsageBytes := 0 }).CPUUsageMilli = 0 then
          (sumPodRequests p).1
        else ((mapLookup usage (p.ns ++ "/" ++ p.name)).getD
          { CPUUsageMilli := 0, MemoryUsageBytes := 0 }).CPUUsageMilli) ∧
    (podStep b usage s (some p)).clusterMemUsage =
      s.clusterMemUsage +
        (if ((mapLookup usage (p.ns ++ "/" ++ p.name)).getD
              { CPUUsageMilli := 0, MemoryUsageBytes := 0 }).MemoryUsageBytes = 0 then
          (sumPodRequests p).2
        else ((mapLookup usage (p.ns ++ "/" ++ p.name)).getD
          { CPUUsageMilli := 0, MemoryUsageBytes := 0 }).MemoryUsageBytes) := by
  have hskip : ¬(skipPod (some p) = true) := by simp [h1]
  rw [podStep, if_neg hskip]
  dsimp only
  cases hfind : s.nodeRecords.find p.nodeName with
  | some agg =>
    dsimp only
    rw [StrMap.find_insert_self]
    exact ⟨rfl, rfl, rfl, rfl, rfl⟩
  | none =>
    dsimp only
    rw [StrMap.find_insert_self]
    exact ⟨rfl, rfl, rfl, rfl, rfl⟩

/-- C3 witness, both spec examples at once: the scenario's sandbox pod
(request 250m, no usage entry) adds exactly 250 to its namespace's CPU
usage, while the payments pod (request 500m, measured 400m) adds exactly
400 to usage and still 500 to the request total. -/
theorem c3_usage_fallback_witness :
    ((podStep scenarioBuilder scenarioUsage scenarioState
        (some scenarioPodNonProd)).nsRecords.find "sandbox").map
        (fun r => r.CPUUsageMilli) = some (0 + 250) ∧
    ((podStep scenarioBuilder scenarioUsage scenarioState
        (some scenarioPodProd)).nsRecords.find "payments").map
        (fun r => r.CPUUsageMilli) = some (0 + 400) ∧
    ((podStep scenarioBuilder scenarioUsage scenarioState
        (some scenarioPodProd)).nsRecords.find "payments").map
        (fun r => r.CPURequestMilli) = some (0 + 500) := by
  have hs := c3_usage_fallback scenarioBuilder scenarioUsage scenarioState
    scenarioPodNonProd (by with_unfolding_all decide)
  have hp := c3_usage_fallback scenarioBuilder scenarioUsage scenarioState
    scenarioPodProd (by with_unfolding_all decide)
  refine ⟨?_, ?_, ?_⟩
  · with_unfolding_all exact hs.1
  · with_unfolding_all exact hp.1
  · with_unfolding_all exact hp.2.2.1

/-- C1: the end-to-end scenario evaluates exactly as the spec states
(rationals in place of floats, so the float approximations are exact):
payments costs 0.025/hr = 1/40, sandbox 0.0125/hr = 1/80, node-1 runs at
32.5 % CPU, and the cluster totals are 750m requested, 650m used and
0.1/hr of node cost. -/
theorem c1_end_to_end_scenario :
    scenarioSnap.Namespaces.map (fun r => (r.Namespace, r.HourlyCost)) =
      [("payments", 1/40), ("sandbox", 1/80)] ∧
    scenarioSnap.Nodes.map (fun r => (r.NodeName, r.CPUUsagePercent)) =
      [("node-1", 65/2)] ∧
    scenarioSnap.Resources.CPURequestMilliTotal = 750 ∧
    scenarioSnap.Resources.CPUUsageMilliTotal = 650 ∧
    scenarioSnap.Resources.TotalNodeHourlyCost = 1/10 := by
  with_unfolding_all decide

theorem clampPercent_bounds (v : Rat) :
    0 ≤ clampPercent v ∧ clampPercent v ≤ 100 := by
  unfold clampPercent
  split_ifs with h1 h2
  · exact ⟨le_refl 0, by norm_num⟩
  · exact ⟨by norm_num, le_refl 100⟩
  · exact ⟨not_lt.1 h1, not_lt.1 h2⟩

theorem podStep_nodeRecords_record (b : Builder)
    (usage : List (String × PodUsage)) (s : BuildState) (pod : Option PodInfo)
    (k : String) :
    ((podStep b usage s pod).nodeRecords.find k).map (fun a => a.record) =
      (s.nodeRecords.find k).map (fun a => a.record) := by
  by_cases hskip : skipPod pod = true
  · rw [podStep.eq_def, if_pos hskip]
  · rw [podStep.eq_def, if_neg hskip]
    cases pod with
    | none => rfl
    | some p =>
      dsimp only
      cases hfind : s.nodeRecords.find p.nodeName with
      | none => rfl
      | some agg =>
        dsimp only
        by_cases hk : k = p.nodeName
        · subst hk
          rw [StrMap.find_insert_self, hfind]
          rfl
        · rw [StrMap.find_insert_ne _ _ _ _ hk]

theorem foldPods_nodeRecords_record (b : Builder)
    (usage : List (String × PodUsage)) (pods : List (Option PodInfo))
    (s : BuildState) (k : String) :
    (((pods.foldl (podStep b usage) s).nodeRecords.find k).map
        (fun a => a.record)) =
      (s.nodeRecords.find k).map (fun a => a.record) := by
  induction pods generalizing s with
  | nil => rfl
  | cons pod rest ih =>
    rw [List.foldl_cons, ih, podStep_nodeRecords_record]

theorem seedNodes_record_percents (b : Builder) (nodes : List NodeInfo) :
    ∀ (k : String) (agg : nodeAggregate),
      (seedNodes b nodes).1.find k = some agg →
      agg.record.CPUUsagePercent = 0 ∧ agg.record.MemoryUsagePercent = 0 := by
  suffices h : ∀ (l : List NodeInfo) (acc : StrMap nodeAggregate × Rat),
      (∀ k agg, acc.1.find k = some agg →
        agg.record.CPUUsagePercent = 0 ∧ agg.record.MemoryUsagePercent = 0) →
      ∀ k agg,
        (l.foldl (fun acc node =>
          let agg := seedNode b node
          (acc.1.insert node.name agg, acc.2 + agg.record.HourlyCost)) acc).1.find k =
          some agg →
        agg.record.CPUUsagePercent = 0 ∧ agg.record.MemoryUsagePercent = 0 by
    intro k agg hk
    refine h nodes (StrMap.empty, 0) ?_ k agg hk
    intro k2 agg2 h2
    simp [StrMap.empty] at h2
  intro l
  induction l with
  | nil =>
    intro acc hacc k agg h
    exact hacc k agg h
  | cons node rest ih =>
    intro acc hacc k agg h
    rw [List.foldl_cons] at h
    refine ih _ ?_ k agg h
    intro k2 agg2 h2
    dsimp only at h2
    by_cases hk2 : k2 = node.name
    · subst hk2
      rw [StrMap.find_insert_self] at h2
      obtain rfl : seedNode b node = agg2 := by injection h2
      exact ⟨rfl, rfl⟩
    · rw [StrMap.find_insert_ne _ _ _ _ hk2] at h2
      exact hacc k2 agg2 h2

theorem finalizeNode_fields (agg : nodeAggregate) :
    (finalizeNode agg).CPUUsagePercent =
      (if 0 < agg.record.CPUAllocatableMilli then
        clampPercent ((agg.cpuUsageMilli : Rat) /
          (agg.record.CPUAllocatableMilli : Rat) * 100)
      else agg.record.CPUUsagePercent) ∧
    (finalizeNode agg).MemoryUsagePercent =
      (if 0 < agg.record.MemoryAllocatableBytes then
        clampPercent ((agg.memoryUsageBytes : Rat) /
          (agg.record.MemoryAllocatableBytes : Rat) * 100)
      else agg.record.MemoryUsagePercent) ∧
    (finalizeNode agg).CPUAllocatableMilli = agg.record.CPUAllocatableMilli ∧
    (finalizeNode agg).MemoryAllocatableBytes = agg.record.MemoryAllocatableBytes := by
  unfold finalizeNode
  by_cases h1 : 0 < agg.record.CPUAllocatableMilli <;>
    by_cases h2 : 0 < agg.record.MemoryAllocatableBytes <;>
      simp [h1, h2]

/-- C8: every node record of every Build output has both usage percents in
[0, 100]; the percents equal the clamped usage/allocatable ratio whenever
the corresponding allocatable is positive, and stay 0 when it is not. -/
theorem c8_percent_clamping (b : Builder) (nodes : List NodeInfo)
    (namespaces : List NamespaceInfo) (pods : List (Option PodInfo))
    (usage : List (String × PodUsage)) (t : Int) :
    (∀ r ∈ (b.Build nodes namespaces pods usage t).Nodes,
      (0 ≤ r.CPUUsagePercent ∧ r.CPUUsagePercent ≤ 100 ∧
        0 ≤ r.MemoryUsagePercent ∧ r.MemoryUsagePercent ≤ 100) ∧
      (r.CPUAllocatableMilli ≤ 0 → r.CPUUsagePercent = 0) ∧
      (r.MemoryAllocatableBytes ≤ 0 → r.MemoryUsagePercent = 0)) ∧
    (∀ agg : nodeAggregate, 0 < agg.record.CPUAllocatableMilli →
      (finalizeNode agg).CPUUsagePercent =
        clampPercent ((agg.cpuUsageMilli : Rat) /
          (agg.record.CPUAllocatableMilli : Rat) * 100)) ∧
    (∀ agg : nodeAggregate, 0 < agg.record.MemoryAllocatableBytes →
      (finalizeNode agg).MemoryUsagePercent =
        clampPercent ((agg.memoryUsageBytes : Rat) /
          (agg.record.MemoryAllocatableBytes : Rat) * 100)) := by
  refine ⟨?_, ?_, ?_⟩
  · intro r hr
    simp only [Builder.Build, List.mem_map, List.mem_filterMap] at hr
    obtain ⟨agg, ⟨k, hkmem, hfind⟩, rfl⟩ := hr
    have hrec := foldPods_nodeRecords_record b usage pods
      { nsRecords := seedNamespaces b namespaces
        nodeRecords := (seedNodes b nodes).1
        clusterCPUReq := 0
        clusterCPUUsage := 0
        clusterMemReq := 0
        clusterMemUsage := 0 } k
    rw [hfind] at hrec
    cases hseed : (seedNodes b nodes).1.find k with
    | none =>
      rw [hseed] at hrec
      simp at hrec
    | some agg0 =>
      rw [hseed] at hrec
      have hrec2 : agg.record = agg0.record := by
        simpa using hrec
      have hzero := seedNodes_record_percents b nodes k agg0 hseed
      obtain ⟨hf1, hf2, hf3, hf4⟩ := finalizeNode_fields agg
      constructor
      · refine ⟨?_, ?_, ?_, ?_⟩
        · rw [hf1]
          split_ifs with h
          · exact (clampPercent_bounds _).1
          · rw [hrec2, hzero.1]
        · rw [hf1]
          split_ifs with h
          · exact (clampPercent_bounds _).2
          · rw [hrec2, hzero.1]
            norm_num
        · rw [hf2]
          split_ifs with h
          · exact (clampPercent_bounds _).1
          · rw [hrec2, hzero.2]
        · rw [hf2]
          split_ifs with h
          · exact (clampPercent_bounds _).2
          · rw [hrec2, hzero.2]
            norm_num
      · constructor
        · intro halloc
          rw [hf3] at halloc
          rw [hf1, if_neg (not_lt.2 halloc), hrec2, hzero.1]
        · intro halloc
          rw [hf4] at halloc
          rw [hf2, if_neg (not_lt.2 halloc), hrec2, hzero.2]
  · intro agg h
    rw [(finalizeNode_fields agg).1, if_pos h]
  · intro agg h
    rw [(finalizeNode_fields agg).2.1, if_pos h]

/-- C8 witness: the overcommitted node's record (usage 250m on 100m
allocatable, zero memory allocatable) satisfies the bounds — its CPU
percent is exactly 100 and its memory percent 0. -/
theorem c8_percent_clamping_witness :
    ((0 ≤ overRecord.CPUUsagePercent ∧ overRecord.CPUUsagePercent ≤ 100 ∧
      0 ≤ overRecord.MemoryUsagePercent ∧ overRecord.MemoryUsagePercent ≤ 100) ∧
     (overRecord.CPUAllocatableMilli ≤ 0 → overRecord.CPUUsagePercent = 0) ∧
     (overRecord.MemoryAllocatableBytes ≤ 0 → overRecord.MemoryUsagePercent = 0)) ∧
    overRecord.CPUUsagePercent = 100 ∧ overRecord.MemoryUsagePercent = 0 :=
  ⟨(c8_percent_clamping scenarioBuilder [overNode] [] [some overPod] [] 0).1
      overRecord (by with_unfolding_all decide),
    by with_unfolding_all decide⟩

theorem StrMap.mem_keys_insert {α : Type} (m : StrMap α) (hcoh : m.Coherent)
    (k q : String) (v : α) :
    q ∈ (m.insert k v).keys ↔ q = k ∨ q ∈ m.keys := by
  by_cases hk : (m.find k).isSome
  · rw [StrMap.keys_insert_of_isSome _ _ _ hk]
    have hkmem : k ∈ m.keys := (hcoh.1 k).1 hk
    constructor
    · exact Or.inr
    · rintro (rfl | h)
      · exact hkmem
      · exact h
  · have hnone : m.find k = none := by
      cases hfk : m.find k
      · rfl
      · exact absurd (by simp [hfk]) hk
    rw [StrMap.keys_insert_of_none _ _ _ hnone]
    exact Multiset.mem_cons

theorem podStep_nsRecords_coherent (b : Builder)
    (usage : List (String × PodUsage)) (s : BuildState) (pod : Option PodInfo)
    (h : s.nsRecords.Coherent) : (podStep b usage s pod).nsRecords.Coherent := by
  by_cases hskip : skipPod pod = true
  · rwa [podStep.eq_def, if_pos hskip]
  · rw [podStep.eq_def, if_neg hskip]
    cases pod with
    | none => exact h
    | some p =>
      dsimp only
      cases s.nodeRecords.find p.nodeName with
      | none => exact StrMap.coherent_insert _ _ _ h
      | some agg => exact StrMap.coherent_insert _ _ _ h

theorem foldPods_nsRecords_coherent (b : Builder)
    (usage : List (String × PodUsage)) (pods : List (Option PodInfo))
    (s : BuildState) (h : s.nsRecords.Coherent) :
    (pods.foldl (podStep b usage) s).nsRecords.Coherent := by
  induction pods generalizing s with
  | nil => exact h
  | cons pod rest ih =>
    rw [List.foldl_cons]
    exact ih _ (podStep_nsRecords_coherent b usage s pod h)

theorem podStep_nsRecords_name (b : Builder)
    (usage : List (String × PodUsage)) (s : BuildState) (pod : Option PodInfo)
    (h : ∀ k r, s.nsRecords.find k = some r → r.Namespace = k) :
    ∀ k r, (podStep b usage s pod).nsRecords.find k = some r →
      r.Namespace = k := by
  by_cases hskip : skipPod pod = true
  · rwa [podStep.eq_def, if_pos hskip]
  · rw [podStep.eq_def, if_neg hskip]
    cases pod with
    | none => exact h
    | some p =>
      dsimp only
      have hens : (ensureNamespace s.nsRecords b.clusterID p.ns
          b.classifier).Namespace = p.ns := by
        rw [ensureNamespace.eq_def]
        cases hf : s.nsRecords.find p.ns with
        | none => rfl
        | some r0 => exact h p.ns r0 hf
      cases s.nodeRecords.find p.nodeName with
      | none =>
        intro k r hk
        dsimp only at hk
        by_cases hkp : k = p.ns
        · subst hkp
          rw [StrMap.find_insert_self] at hk
          injection hk with hk2
          rw [← hk2]
          exact hens
        · rw [StrMap.find_insert_ne _ _ _ _ hkp] at hk
          exact h k r hk
      | some agg =>
        intro k r hk
        dsimp only at hk
        by_cases hkp : k = p.ns
        · subst hkp
          rw [StrMap.find_insert_self] at hk
          injection hk with hk2
          rw [← hk2]
          exact hens
        · rw [StrMap.find_insert_ne _ _ _ _ hkp] at hk
          exact h k r hk

theorem foldPods_nsRecords_name (b : Builder)
    (usage : List (String × PodUsage)) (pods : List (Option PodInfo))
    (s : BuildState)
    (h : ∀ k r, s.nsRecords.find k = some r → r.Namespace = k) :
    ∀ k r, (pods.foldl (podStep b usage) s).nsRecords.find k = some r →
      r.Namespace = k := by
  induction pods generalizing s with
  | nil => exact h
  | cons pod rest ih =>
    rw [List.foldl_cons]
    exact ih _ (podStep_nsRecords_name b usage s pod h)

theorem podStep_nsRecords_keys (b : Builder)
    (usage : List (String × PodUsage)) (s : BuildState) (pod : Option PodInfo)
    (hcoh : s.nsRecords.Coherent) (k : String) :
    k ∈ (podStep b usage s pod).nsRecords.keys ↔
      (∃ p : PodInfo, pod = some p ∧ skipPod (some p) = false ∧ p.ns = k) ∨
        k ∈ s.nsRecords.keys := by
  by_cases hskip : skipPod pod = true
  · rw [podStep.eq_def, if_pos hskip]
    constructor
    · exact Or.inr
    · rintro (⟨p, rfl, hp, _⟩ | h)
      · rw [hp] at hskip
        cases hskip
      · exact h
  · rw [podStep.eq_def, if_neg hskip]
    cases pod with
    | none => exact absurd rfl hskip
    | some p =>
      dsimp only
      cases s.nodeRecords.find p.nodeName with
      | none =>
        rw [StrMap.mem_keys_insert _ hcoh]
        constructor
        · rintro (rfl | h)
          · exact Or.inl ⟨p, rfl, by simpa using hskip, rfl⟩
          · exact Or.inr h
        · rintro (⟨q, hq, _, rfl⟩ | h)
          · injection hq with hq2
            subst hq2
            exact Or.inl rfl
          · exact Or.inr h
      | some agg =>
        rw [StrMap.mem_keys_insert _ hcoh]
        constructor
        · rintro (rfl | h)
          · exact Or.inl ⟨p, rfl, by simpa using hskip, rfl⟩
          · exact Or.inr h
        · rintro (⟨q, hq, _, rfl⟩ | h)
          · injection hq with hq2
            subst hq2
            exact Or.inl rfl
          · exact Or.inr h

theorem foldPods_nsRecords_keys (b : Builder)
    (usage : List (String × PodUsage)) (pods : List (Option PodInfo))
    (s : BuildState) (hcoh : s.nsRecords.Coherent) (k : String) :
    k ∈ (pods.foldl (podStep b usage) s).nsRecords.keys ↔
      (∃ p : PodInfo, some p ∈ pods ∧ skipPod (some p) = false ∧ p.ns = k) ∨
        k ∈ s.nsRecords.keys := by
  induction pods generalizing s with
  | nil =>
    simp
  | cons pod rest ih =>
    rw [List.foldl_cons,
      ih _ (podStep_nsRecords_coherent b usage s pod hcoh),
      podStep_nsRecords_keys b usage s pod hcoh k]
    constructor
    · rintro (⟨p, hp, hskip, rfl⟩ | ⟨p, rfl, hskip, rfl⟩ | h)
      · exact Or.inl ⟨p, List.mem_cons_of_mem _ hp, hskip, rfl⟩
      · exact Or.inl ⟨p, List.mem_cons_self _ _, hskip, rfl⟩
      · exact Or.inr h
    · rintro (⟨p, hp, hskip, rfl⟩ | h)
      · rcases List.mem_cons.1 hp with hp1 | hp1
        · exact Or.inr (Or.inl ⟨p, hp1.symm, hskip, rfl⟩)
        · exact Or.inl ⟨p, hp1, hskip, rfl⟩
      · exact Or.inr (Or.inr h)

theorem podStep_nsRecords_lazy (b : Builder)
    (usage : List (String × PodUsage)) (s : BuildState) (pod : Option PodInfo)
    (D : List String)
    (h : ∀ k r, s.nsRecords.find k = some r → k ∉ D →
      r.Labels = [] ∧ r.Environment = b.classifier.Classify k []) :
    ∀ k r, (podStep b usage s pod).nsRecords.find k = some r → k ∉ D →
      r.Labels = [] ∧ r.Environment = b.classifier.Classify k [] := by
  by_cases hskip : skipPod pod = true
  · rwa [podStep.eq_def, if_pos hskip]
  · rw [podStep.eq_def, if_neg hskip]
    cases pod with
    | none => exact h
    | some p =>
      dsimp only
      have hens : p.ns ∉ D →
          (ensureNamespace s.nsRecords b.clusterID p.ns b.classifier).Labels = [] ∧
          (ensureNamespace s.nsRecords b.clusterID p.ns
            b.classifier).Environment = b.classifier.Classify p.ns [] := by
        intro hD
        rw [ensureNamespace.eq_def]
        cases hf : s.nsRecords.find p.ns with
        | none => exact ⟨rfl, rfl⟩
        | some r0 => exact h p.ns r0 hf hD
      cases s.nodeRecords.find p.nodeName with
      | none =>
        intro k r hk hD
        dsimp only at hk
        by_cases hkp : k = p.ns
        · subst hkp
          rw [StrMap.find_insert_self] at hk
          injection hk with hk2
          rw [← hk2]
          exact hens hD
        · rw [StrMap.find_insert_ne _ _ _ _ hkp] at hk
          exact h k r hk hD
      | some agg =>
        intro k r hk hD
        dsimp only at hk
        by_cases hkp : k = p.ns
        · subst hkp
          rw [StrMap.find_insert_self] at hk
          injection hk with hk2
          rw [← hk2]
          exact hens hD
        · rw [StrMap.find_insert_ne _ _ _ _ hkp] at hk
          exact h k r hk hD

theorem foldPods_nsRecords_lazy (b : Builder)
    (usage : List (String × PodUsage)) (pods : List (Option PodInfo))
    (s : BuildState) (D : List String)
    (h : ∀ k r, s.nsRecords.find k = some r → k ∉ D →
      r.Labels = [] ∧ r.Environment = b.classifier.Classify k []) :
    ∀ k r, (pods.foldl (podStep b usage) s).nsRecords.find k = some r →
      k ∉ D → r.Labels = [] ∧ r.Environment = b.classifier.Classify k [] := by
  induction pods generalizing s with
  | nil => exact h
  | cons pod rest ih =>
    rw [List.foldl_cons]
    exact ih _ (podStep_nsRecords_lazy b usage s pod D h)

theorem seedNamespaces_inv (b : Builder) (l : List NamespaceInfo) :
    (seedNamespaces b l).Coherent ∧
    (∀ k r, (seedNamespaces b l).find k = some r → r.Namespace = k) ∧
    (∀ k, k ∈ (seedNamespaces b l).keys ↔ k ∈ l.map (fun ns => ns.name)) := by
  suffices h : ∀ (l2 : List NamespaceInfo) (acc : StrMap NamespaceCostRecord),
      acc.Coherent → (∀ k r, acc.find k = some r → r.Namespace = k) →
      ((l2.foldl (fun m ns => m.insert ns.name (seedNamespaceRecord b ns)) acc).Coherent ∧
        (∀ k r, (l2.foldl (fun m ns => m.insert ns.name (seedNamespaceRecord b ns))
            acc).find k = some r → r.Namespace = k) ∧
        (∀ k, k ∈ (l2.foldl (fun m ns => m.insert ns.name (seedNamespaceRecord b ns))
            acc).keys ↔ k ∈ l2.map (fun ns => ns.name) ∨ k ∈ acc.keys)) by
    obtain ⟨h1, h2, h3⟩ := h l StrMap.empty StrMap.coherent_empty
      (fun k r hk => by simp [StrMap.empty] at hk)
    refine ⟨h1, h2, fun k => ?_⟩
    rw [seedNamespaces, h3 k]
    simp [StrMap.empty]
  intro l2
  induction l2 with
  | nil =>
    intro acc hcoh hname
    exact ⟨hcoh, hname, fun k => by simp⟩
  | cons ns rest ih =>
    intro acc hcoh hname
    rw [List.foldl_cons]
    obtain ⟨h1, h2, h3⟩ := ih (acc.insert ns.name (seedNamespaceRecord b ns))
      (StrMap.coherent_insert _ _ _ hcoh)
      (fun k r hk => by
        by_cases hkn : k = ns.name
        · subst hkn
          rw [StrMap.find_insert_self] at hk
          injection hk with hk2
          rw [← hk2]
          rfl
        · rw [StrMap.find_insert_ne _ _ _ _ hkn] at hk
          exact hname k r hk)
    refine ⟨h1, h2, fun k => ?_⟩
    rw [h3 k, StrMap.mem_keys_insert _ hcoh]
    simp only [List.map_cons, List.mem_cons]
    tauto

theorem filterMap_map_names {α : Type} (find : String → Option α)
    (f : α → String) (l : List String)
    (hsome : ∀ k ∈ l, (find k).isSome = true)
    (hname : ∀ k r, find k = some r → f r = k) :
    (l.filterMap find).map f = l := by
  induction l with
  | nil => rfl
  | cons k rest ih =>
    have hk := hsome k (List.mem_cons_self _ _)
    cases hf : find k with
    | none => rw [hf] at hk; cases hk
    | some r =>
      rw [List.filterMap_cons_some hf, List.map_cons, hname k r hf,
        ih (fun q hq => hsome q (List.mem_cons_of_mem _ hq))]

/-- C9: the namespace records of a Build output are exactly the declared
namespaces plus the namespaces of non-skipped pods, each exactly once; a
namespace missing from the declared list but referenced by a non-skipped
pod is lazily created, classified from its name alone with no labels. -/
theorem c9_namespace_records (b : Builder) (nodes : List NodeInfo)
    (namespaces : List NamespaceInfo) (pods : List (Option PodInfo))
    (usage : List (String × PodUsage)) (t : Int) :
    ((b.Build nodes namespaces pods usage t).Namespaces.map
      (fun r => r.Namespace)).Nodup ∧
    (∀ name : String,
      name ∈ (b.Build nodes namespaces pods usage t).Namespaces.map
          (fun r => r.Namespace) ↔
        (name ∈ namespaces.map (fun ns => ns.name) ∨
          ∃ p : PodInfo, some p ∈ pods ∧ skipPod (some p) = false ∧
            p.ns = name)) ∧
    (∀ r ∈ (b.Build nodes namespaces pods usage t).Namespaces,
      r.Namespace ∉ namespaces.map (fun ns => ns.name) →
        r.Labels = [] ∧ r.Environment = b.classifier.Classify r.Namespace []) := by
  obtain ⟨hcoh0, hname0, hkeys0⟩ := seedNamespaces_inv b namespaces
  have hBuild : (b.Build nodes namespaces pods usage t).Namespaces =
      (sortedKeyList (pods.foldl (podStep b usage)
        { nsRecords := seedNamespaces b namespaces
          nodeRecords := (seedNodes b nodes).1
          clusterCPUReq := 0
          clusterCPUUsage := 0
          clusterMemReq := 0
          clusterMemUsage := 0 }).nsRecords.keys).filterMap
        (pods.foldl (podStep b usage)
          { nsRecords := seedNamespaces b namespaces
            nodeRecords := (seedNodes b nodes).1
            clusterCPUReq := 0
            clusterCPUUsage := 0
            clusterMemReq := 0
            clusterMemUsage := 0 }).nsRecords.find := rfl
  have hcohF := foldPods_nsRecords_coherent b usage pods
    { nsRecords := seedNamespaces b namespaces
      nodeRecords := (seedNodes b nodes).1
      clusterCPUReq := 0
      clusterCPUUsage := 0
      clusterMemReq := 0
      clusterMemUsage := 0 } hcoh0
  have hnameF := foldPods_nsRecords_name b usage pods
    { nsRecords := seedNamespaces b namespaces
      nodeRecords := (seedNodes b nodes).1
      clusterCPUReq := 0
      clusterCPUUsage := 0
      clusterMemReq := 0
      clusterMemUsage := 0 } hname0
  have hkeysF := foldPods_nsRecords_keys b usage pods
    { nsRecords := seedNamespaces b namespaces
      nodeRecords := (seedNodes b nodes).1
      clusterCPUReq := 0
      clusterCPUUsage := 0
      clusterMemReq := 0
      clusterMemUsage := 0 } hcoh0
  have hlazyF := foldPods_nsRecords_lazy b usage pods
    { nsRecords := seedNamespaces b namespaces
      nodeRecords := (seedNodes b nodes).1
      clusterCPUReq := 0
      clusterCPUUsage := 0
      clusterMemReq := 0
      clusterMemUsage := 0 } (namespaces.map (fun ns => ns.name))
    (fun k r hk hD => by
      have hk2 : (seedNamespaces b namespaces).find k = some r := hk
      exact absurd ((hkeys0 k).1 ((hcoh0.1 k).1 (by simp [hk2]))) hD)
  have hnames : (b.Build nodes namespaces pods usage t).Namespaces.map
      (fun r => r.Namespace) =
      sortedKeyList (pods.foldl (podStep b usage)
        { nsRecords := seedNamespaces b namespaces
          nodeRecords := (seedNodes b nodes).1
          clusterCPUReq := 0
          clusterCPUUsage := 0
          clusterMemReq := 0
          clusterMemUsage := 0 }).nsRecords.keys := by
    rw [hBuild]
    exact filterMap_map_names _ _ _
      (fun k hk => (hcohF.1 k).2 ((mem_sortedKeyList _ _).1 hk)) hnameF
  refine ⟨?_, ?_, ?_⟩
  · rw [hnames]
    exact sortedKeyList_nodup _ hcohF.2
  · intro name
    rw [hnames, mem_sortedKeyList, hkeysF name]
    have hseedkeys : name ∈ (List.foldl (podStep b usage)
        { nsRecords := seedNamespaces b namespaces
          nodeRecords := (seedNodes b nodes).1
          clusterCPUReq := 0
          clusterCPUUsage := 0
          clusterMemReq := 0
          clusterMemUsage := 0 } []).nsRecords.keys ↔
        name ∈ namespaces.map (fun ns => ns.name) := hkeys0 name
    rw [List.foldl_nil] at hseedkeys
    rw [hseedkeys]
    exact or_comm
  · intro r hr hD
    rw [hBuild] at hr
    obtain ⟨k, hk, hfind⟩ := List.mem_filterMap.1 hr
    have hknm := hnameF k r hfind
    rw [← hknm] at hfind
    exact hlazyF _ r hfind hD

/-- C9 witness: a build with an empty declared-namespace list and one
running pod in namespace d still produces a record for d, with no labels
and the name-only classification (nonprod). -/
theorem c9_namespace_records_witness :
    "d" ∈ (scenarioBuilder.Build [] [] [some overPod] [] 0).Namespaces.map
        (fun r => r.Namespace) ∧
    (ghostRecord.Namespace ∉ ([] : List NamespaceInfo).map (fun ns => ns.name) →
      ghostRecord.Labels = [] ∧
      ghostRecord.Environment =
        scenarioBuilder.classifier.Classify ghostRecord.Namespace []) :=
  ⟨((c9_namespace_records scenarioBuilder [] [] [some overPod] [] 0).2.1 "d").2
      (Or.inr ⟨overPod, by simp, by with_unfolding_all decide, rfl⟩),
    (c9_namespace_records scenarioBuilder [] [] [some overPod] [] 0).2.2
      ghostRecord (by with_unfolding_all decide)⟩

theorem podStep_skip (b : Builder) (usage : List (String × PodUsage))
    (s : BuildState) (pod : Option PodInfo) (h : skipPod pod = true) :
    podStep b usage s pod = s := by
  rw [podStep.eq_def, if_pos h]

theorem podStep_eq (b : Builder) (usage : List (String × PodUsage))
    (s : BuildState) (p : PodInfo) (h : skipPod (some p) = false) :
    podStep b usage s (some p) =
      { nsRecords := s.nsRecords.insert p.ns
          (podNsRecord b s.nsRecords s.nodeRecords usage p)
        nodeRecords := podNodeMap s.nodeRecords usage p
        clusterCPUReq := s.clusterCPUReq + (sumPodRequests p).1
        clusterCPUUsage := s.clusterCPUUsage + podCpuUsage usage p
        clusterMemReq := s.clusterMemReq + (sumPodRequests p).2
        clusterMemUsage := s.clusterMemUsage + podMemUsage usage p } := by
  rw [podStep.eq_def, if_neg (by simp [h])]
  dsimp only
  cases hf : s.nodeRecords.find p.nodeName with
  | some agg =>
    dsimp only
    simp only [podNsRecord, podNodeMap, podCostDelta, podCpuUsage,
      podMemUsage, hf]
  | none =>
    dsimp only
    simp only [podNsRecord, podNodeMap, podCostDelta, podCpuUsage,
      podMemUsage, hf, add_zero]

theorem ensureNamespace_insert_ne (m : StrMap NamespaceCostRecord)
    (cid : String) (cl : EnvironmentClassifier) (k name : String)
    (v : NamespaceCostRecord) (h : name ≠ k) :
    ensureNamespace (m.insert k v) cid name cl =
      ensureNamespace m cid name cl := by
  rw [ensureNamespace.eq_def, ensureNamespace.eq_def,
    StrMap.find_insert_ne _ _ _ _ h]

theorem ensureNamespace_insert_self (m : StrMap NamespaceCostRecord)
    (cid : String) (cl : EnvironmentClassifier) (k : String)
    (v : NamespaceCostRecord) :
    ensureNamespace (m.insert k v) cid k cl = v := by
  rw [ensureNamespace.eq_def, StrMap.find_insert_self]

theorem podCostDelta_podNodeMap (m : StrMap nodeAggregate)
    (usage : List (String × PodUsage)) (q p : PodInfo) :
    podCostDelta (podNodeMap m usage q) p = podCostDelta m p := by
  rw [podNodeMap.eq_def]
  cases hq : m.find q.nodeName with
  | none => rfl
  | some aggq =>
    dsimp only
    rw [podCostDelta.eq_def, podCostDelta.eq_def]
    by_cases hpq : p.nodeName = q.nodeName
    · rw [hpq, StrMap.find_insert_self, hq]
    · rw [StrMap.find_insert_ne _ _ _ _ hpq]

theorem podNsRecord_stable (b : Builder) (m : StrMap NamespaceCostRecord)
    (nodeM : StrMap nodeAggregate) (usage : List (String × PodUsage))
    (q p : PodInfo) (v : NamespaceCostRecord) (h : p.ns ≠ q.ns) :
    podNsRecord b (m.insert q.ns v) (podNodeMap nodeM usage q) usage p =
      podNsRecord b m nodeM usage p := by
  rw [podNsRecord, podNsRecord, ensureNamespace_insert_ne _ _ _ _ _ _ h,
    podCostDelta_podNodeMap]

theorem podNodeMap_comm (m : StrMap nodeAggregate)
    (usage : List (String × PodUsage)) (p q : PodInfo) :
    podNodeMap (podNodeMap m usage q) usage p =
      podNodeMap (podNodeMap m usage p) usage q := by
  by_cases hpq : p.nodeName = q.nodeName
  · rw [podNodeMap.eq_def m usage q, podNodeMap.eq_def m usage p, hpq]
    cases hq : m.find q.nodeName with
    | none =>
      dsimp only
      rw [podNodeMap.eq_def, podNodeMap.eq_def, hpq, hq]
    | some agg =>
      dsimp only
      rw [podNodeMap.eq_def, podNodeMap.eq_def, hpq,
        StrMap.find_insert_self, StrMap.find_insert_self]
      dsimp only
      rw [StrMap.insert_shadow, StrMap.insert_shadow]
      congr 1
      rw [add_right_comm (agg.podCount)]
      rw [add_right_comm (agg.cpuUsageMilli)]
      rw [add_right_comm (agg.memoryUsageBytes)]
  · rw [podNodeMap.eq_def m usage q, podNodeMap.eq_def m usage p]
    cases hq : m.find q.nodeName with
    | none =>
      cases hp : m.find p.nodeName with
      | none =>
        dsimp only
        rw [podNodeMap.eq_def, podNodeMap.eq_def, hq, hp]
      | some aggp =>
        dsimp only
        rw [podNodeMap.eq_def, podNodeMap.eq_def, hp,
          StrMap.find_insert_ne _ _ _ _ (fun hc => hpq hc.symm), hq]
    | some aggq =>
      cases hp : m.find p.nodeName with
      | none =>
        dsimp only
        rw [podNodeMap.eq_def, podNodeMap.eq_def, hq,
          StrMap.find_insert_ne _ _ _ _ hpq, hp]
      | some aggp =>
        dsimp only
        rw [podNodeMap.eq_def, podNodeMap.eq_def,
          StrMap.find_insert_ne _ _ _ _ hpq, hp,
          StrMap.find_insert_ne _ _ _ _ (fun hc => hpq hc.symm), hq]
        dsimp only
        exact StrMap.insert_comm_ne _ _ _ _ _ (fun hc => hpq hc.symm)

theorem podStep_comm (b : Builder) (usage : List (String × PodUsage))
    (s : BuildState) (p q : Option PodInfo) :
    podStep b usage (podStep b usage s p) q =
      podStep b usage (podStep b usage s q) p := by
  by_cases hp : skipPod p = true
  · rw [podStep_skip b usage s p hp, podStep_skip b usage _ p hp]
  · by_cases hq : skipPod q = true
    · rw [podStep_skip b usage _ q hq, podStep_skip b usage s q hq]
    · rw [Bool.not_eq_true] at hp hq
      cases p with
      | none => simp [skipPod] at hp
      | some pp =>
        cases q with
        | none => simp [skipPod] at hq
        | some qq =>
          rw [podStep_eq b usage s pp hp, podStep_eq b usage s qq hq]
          rw [podStep_eq b usage _ qq hq, podStep_eq b usage _ pp hp]
          dsimp only
          by_cases hns : pp.ns = qq.ns
          · congr 1
            · simp only [podNsRecord, podCostDelta_podNodeMap]
              rw [hns]
              rw [StrMap.insert_shadow, StrMap.insert_shadow]
              rw [ensureNamespace_insert_self, ensureNamespace_insert_self]
              refine congrArg (s.nsRecords.insert qq.ns) ?_
              dsimp only
              simp only [NamespaceCostRecord.mk.injEq]
              and_intros <;> first
                | exact trivial
                | exact add_right_comm _ _ _
            · exact podNodeMap_comm s.nodeRecords usage qq pp
            · exact add_right_comm _ _ _
            · exact add_right_comm _ _ _
            · exact add_right_comm _ _ _
            · exact add_right_comm _ _ _
          · congr 1
            · rw [podNsRecord_stable b _ _ usage pp qq _ (fun hc => hns hc.symm),
                podNsRecord_stable b _ _ usage qq pp _ hns]
              exact StrMap.insert_comm_ne _ _ _ _ _ hns
            · exact podNodeMap_comm s.nodeRecords usage qq pp
            · exact add_right_comm _ _ _
            · exact add_right_comm _ _ _
            · exact add_right_comm _ _ _
            · exact add_right_comm _ _ _

theorem seedNamespaces_perm (b : Builder) {l l' : List NamespaceInfo}
    (hperm : l.Perm l') (hnodup : (l.map (fun ns => ns.name)).Nodup) :
    seedNamespaces b l = seedNamespaces b l' := by
  unfold seedNamespaces
  refine hperm.foldl_eq' ?_ _
  intro x hx y hy z
  by_cases hxy : x = y
  · rw [hxy]
  · have hname : x.name ≠ y.name := fun hn =>
      hxy (List.inj_on_of_nodup_map hnodup hx hy hn)
    exact StrMap.insert_comm_ne z _ _ _ _ hname

theorem seedNodes_perm (b : Builder) {l l' : List NodeInfo}
    (hperm : l.Perm l') (hnodup : (l.map (fun n => n.name)).Nodup) :
    seedNodes b l = seedNodes b l' := by
  unfold seedNodes
  refine hperm.foldl_eq' ?_ _
  intro x hx y hy z
  by_cases hxy : x = y
  · rw [hxy]
  · have hname : x.name ≠ y.name := fun hn =>
      hxy (List.inj_on_of_nodup_map hnodup hx hy hn)
    dsimp only
    simp only [Prod.mk.injEq]
    exact ⟨StrMap.insert_comm_ne _ _ _ _ _ hname, add_right_comm _ _ _⟩

theorem seedNodes_inv (b : Builder) (l : List NodeInfo) :
    (seedNodes b l).1.Coherent ∧
    (∀ k agg, (seedNodes b l).1.find k = some agg →
      agg.record.NodeName = k) := by
  suffices h : ∀ (l2 : List NodeInfo) (acc : StrMap nodeAggregate × Rat),
      acc.1.Coherent →
      (∀ k agg, acc.1.find k = some agg → agg.record.NodeName = k) →
      ((l2.foldl (fun acc node =>
          let agg := seedNode b node
          (acc.1.insert node.name agg, acc.2 + agg.record.HourlyCost)) acc).1.Coherent ∧
        (∀ k agg, (l2.foldl (fun acc node =>
            let agg := seedNode b node
            (acc.1.insert node.name agg, acc.2 + agg.record.HourlyCost)) acc).1.find k =
            some agg → agg.record.NodeName = k)) by
    exact h l (StrMap.empty, 0) StrMap.coherent_empty
      (fun k agg hk => by simp [StrMap.empty] at hk)
  intro l2
  induction l2 with
  | nil =>
    intro acc hcoh hname
    exact ⟨hcoh, hname⟩
  | cons node rest ih =>
    intro acc hcoh hname
    rw [List.foldl_cons]
    exact ih _ (StrMap.coherent_insert _ _ _ hcoh)
      (fun k agg hk => by
        by_cases hkn : k = node.name
        · subst hkn
          rw [StrMap.find_insert_self] at hk
          obtain rfl : seedNode b node = agg := by injection hk
          rfl
        · rw [StrMap.find_insert_ne _ _ _ _ hkn] at hk
          exact hname k agg hk)

theorem podStep_nodeRecords_coherent (b : Builder)
    (usage : List (String × PodUsage)) (s : BuildState) (pod : Option PodInfo)
    (h : s.nodeRecords.Coherent) :
    (podStep b usage s pod).nodeRecords.Coherent := by
  by_cases hskip : skipPod pod = true
  · rwa [podStep_skip _ _ _ _ hskip]
  · cases pod with
    | none => simp [skipPod] at hskip
    | some p =>
      rw [podStep_eq _ _ _ _ (Bool.not_eq_true _ ▸ hskip)]
      rw [podNodeMap.eq_def]
      cases hf : s.nodeRecords.find p.nodeName with
      | none => exact h
      | some agg => exact StrMap.coherent_insert _ _ _ h

theorem podStep_nodeRecords_name (b : Builder)
    (usage : List (String × PodUsage)) (s : BuildState) (pod : Option PodInfo)
    (h : ∀ k agg, s.nodeRecords.find k = some agg → agg.record.NodeName = k) :
    ∀ k agg, (podStep b usage s pod).nodeRecords.find k = some agg →
      agg.record.NodeName = k := by
  by_cases hskip : skipPod pod = true
  · rwa [podStep_skip _ _ _ _ hskip]
  · cases pod with
    | none => simp [skipPod] at hskip
    | some p =>
      rw [podStep_eq _ _ _ _ (Bool.not_eq_true _ ▸ hskip)]
      rw [podNodeMap.eq_def]
      cases hf : s.nodeRecords.find p.nodeName with
      | none => exact h
      | some agg =>
        dsimp only
        intro k agg2 hk
        by_cases hkn : k = p.nodeName
        · subst hkn
          rw [StrMap.find_insert_self] at hk
          obtain rfl : _ = agg2 := by injection hk
          exact h p.nodeName agg hf
        · rw [StrMap.find_insert_ne _ _ _ _ hkn] at hk
          exact h k agg2 hk

theorem foldPods_nodeRecords_coherent (b : Builder)
    (usage : List (String × PodUsage)) (pods : List (Option PodInfo))
    (s : BuildState) (h : s.nodeRecords.Coherent) :
    (pods.foldl (podStep b usage) s).nodeRecords.Coherent := by
  induction pods generalizing s with
  | nil => exact h
  | cons pod rest ih =>
    rw [List.foldl_cons]
    exact ih _ (podStep_nodeRecords_coherent b usage s pod h)

theorem foldPods_nodeRecords_name (b : Builder)
    (usage : List (String × PodUsage)) (pods : List (Option PodInfo))
    (s : BuildState)
    (h : ∀ k agg, s.nodeRecords.find k = some agg → agg.record.NodeName = k) :
    ∀ k agg, (pods.foldl (podStep b usage) s).nodeRecords.find k = some agg →
      agg.record.NodeName = k := by
  induction pods generalizing s with
  | nil => exact h
  | cons pod rest ih =>
    rw [List.foldl_cons]
    exact ih _ (podStep_nodeRecords_name b usage s pod h)

theorem finalizeNode_nodeName (agg : nodeAggregate) :
    (finalizeNode agg).NodeName = agg.record.NodeName := by
  unfold finalizeNode
  by_cases h1 : 0 < agg.record.CPUAllocatableMilli <;>
    by_cases h2 : 0 < agg.record.MemoryAllocatableBytes <;>
      simp [h1, h2]

set_option maxRecDepth 8192 in
/-- C4 counterexample: the claim as stated quantifies over arbitrary input
lists, but Build is order-sensitive when two namespace objects or two node
objects share a name (the later list entry overwrites the earlier one's
record in the Go map): permuting such duplicates changes the output. -/
theorem c4_counterexample :
    ([nsDupA1, nsDupA2].Perm [nsDupA2, nsDupA1]) ∧
    plainBuilder.Build [] [nsDupA1, nsDupA2] [] [] 0 ≠
      plainBuilder.Build [] [nsDupA2, nsDupA1] [] [] 0 ∧
    ([nodeDup1, nodeDup2].Perm [nodeDup2, nodeDup1]) ∧
    plainBuilder.Build [nodeDup1, nodeDup2] [] [] [] 0 ≠
      plainBuilder.Build [nodeDup2, nodeDup1] [] [] [] 0 :=
  ⟨List.Perm.swap _ _ _, by with_unfolding_all decide,
    List.Perm.swap _ _ _, by with_unfolding_all decide⟩

/-- C4 as amended: Build is input-order insensitive for inputs whose node
names are pairwise distinct and whose namespace names are pairwise
distinct (as informer listers guarantee; the pod list may even repeat),
and in every returned Snapshot the namespace list is sorted ascending by
namespace name and the node list ascending by node name. -/
theorem c4_build_determinism (b : Builder) (nodes nodes' : List NodeInfo)
    (nss nss' : List NamespaceInfo) (pods pods' : List (Option PodInfo))
    (usage : List (String × PodUsage)) (t : Int)
    (hnodes : nodes.Perm nodes') (hnss : nss.Perm nss')
    (hpods : pods.Perm pods')
    (hnodup1 : (nodes.map (fun n => n.name)).Nodup)
    (hnodup2 : (nss.map (fun ns => ns.name)).Nodup) :
    b.Build nodes nss pods usage t = b.Build nodes' nss' pods' usage t ∧
    (∀ (nodes2 : List NodeInfo) (nss2 : List NamespaceInfo)
        (pods2 : List (Option PodInfo)) (usage2 : List (String × PodUsage))
        (t2 : Int),
      ((b.Build nodes2 nss2 pods2 usage2 t2).Namespaces.map
        (fun r => r.Namespace)).Sorted (· ≤ ·) ∧
      ((b.Build nodes2 nss2 pods2 usage2 t2).Nodes.map
        (fun r => r.NodeName)).Sorted (· ≤ ·)) := by
  constructor
  · have h1 := seedNamespaces_perm b hnss hnodup2
    have h2 := seedNodes_perm b hnodes hnodup1
    have h3 : ∀ init : BuildState,
        pods.foldl (podStep b usage) init = pods'.foldl (podStep b usage) init :=
      fun init => hpods.foldl_eq'
        (fun x _ y _ z => podStep_comm b usage z x y) init
    simp only [Builder.Build]
    rw [h1, h2, h3]
  · intro nodes2 nss2 pods2 usage2 t2
    constructor
    · obtain ⟨hcoh0, hname0, _⟩ := seedNamespaces_inv b nss2
      have hcohF := foldPods_nsRecords_coherent b usage2 pods2
        { nsRecords := seedNamespaces b nss2
          nodeRecords := (seedNodes b nodes2).1
          clusterCPUReq := 0
          clusterCPUUsage := 0
          clusterMemReq := 0
          clusterMemUsage := 0 } hcoh0
      have hnameF := foldPods_nsRecords_name b usage2 pods2
        { nsRecords := seedNamespaces b nss2
          nodeRecords := (seedNodes b nodes2).1
          clusterCPUReq := 0
          clusterCPUUsage := 0
          clusterMemReq := 0
          clusterMemUsage := 0 } hname0
      have hnames : (b.Build nodes2 nss2 pods2 usage2 t2).Namespaces.map
          (fun r => r.Namespace) =
          sortedKeyList (pods2.foldl (podStep b usage2)
            { nsRecords := seedNamespaces b nss2
              nodeRecords := (seedNodes b nodes2).1
              clusterCPUReq := 0
              clusterCPUUsage := 0
              clusterMemReq := 0
              clusterMemUsage := 0 }).nsRecords.keys :=
        filterMap_map_names _ _ _
          (fun k hk => (hcohF.1 k).2 ((mem_sortedKeyList _ _).1 hk)) hnameF
      rw [hnames]
      exact sortedKeyList_sorted _
    · obtain ⟨hcohN0, hnameN0⟩ := seedNodes_inv b nodes2
      have hcohF := foldPods_nodeRecords_coherent b usage2 pods2
        { nsRecords := seedNamespaces b nss2
          nodeRecords := (seedNodes b nodes2).1
          clusterCPUReq := 0
          clusterCPUUsage := 0
          clusterMemReq := 0
          clusterMemUsage := 0 } hcohN0
      have hnameF := foldPods_nodeRecords_name b usage2 pods2
        { nsRecords := seedNamespaces b nss2
          nodeRecords := (seedNodes b nodes2).1
          clusterCPUReq := 0
          clusterCPUUsage := 0
          clusterMemReq := 0
          clusterMemUsage := 0 } hnameN0
      have hnames : (b.Build nodes2 nss2 pods2 usage2 t2).Nodes.map
          (fun r => r.NodeName) =
          sortedKeyList (pods2.foldl (podStep b usage2)
            { nsRecords := seedNamespaces b nss2
              nodeRecords := (seedNodes b nodes2).1
              clusterCPUReq := 0
              clusterCPUUsage := 0
              clusterMemReq := 0
              clusterMemUsage := 0 }).nodeRecords.keys := by
        have hmm : (b.Build nodes2 nss2 pods2 usage2 t2).Nodes.map
            (fun r => r.NodeName) =
            ((sortedKeyList (pods2.foldl (podStep b usage2)
              { nsRecords := seedNamespaces b nss2
                nodeRecords := (seedNodes b nodes2).1
                clusterCPUReq := 0
                clusterCPUUsage := 0
                clusterMemReq := 0
                clusterMemUsage := 0 }).nodeRecords.keys).filterMap
              (pods2.foldl (podStep b usage2)
                { nsRecords := seedNamespaces b nss2
                  nodeRecords := (seedNodes b nodes2).1
                  clusterCPUReq := 0
                  clusterCPUUsage := 0
                  clusterMemReq := 0
                  clusterMemUsage := 0 }).nodeRecords.find).map
              (fun agg => (finalizeNode agg).NodeName) := by
          have hunfold : (b.Build nodes2 nss2 pods2 usage2 t2).Nodes =
              ((sortedKeyList (pods2.foldl (podStep b usage2)
                { nsRecords := seedNamespaces b nss2
                  nodeRecords := (seedNodes b nodes2).1
                  clusterCPUReq := 0
                  clusterCPUUsage := 0
                  clusterMemReq := 0
                  clusterMemUsage := 0 }).nodeRecords.keys).filterMap
                  (pods2.foldl (podStep b usage2)
                    { nsRecords := seedNamespaces b nss2
                      nodeRecords := (seedNodes b nodes2).1
                      clusterCPUReq := 0
                      clusterCPUUsage := 0
                      clusterMemReq := 0
                      clusterMemUsage := 0 }).nodeRecords.find).map
                finalizeNode := rfl
          rw [hunfold, List.map_map]
          rfl
        rw [hmm]
        exact filterMap_map_names _ _ _
          (fun k hk => (hcohF.1 k).2 ((mem_sortedKeyList _ _).1 hk))
          (fun k agg hfind => by
            rw [finalizeNode_nodeName]
            exact hnameF k agg hfind)
      rw [hnames]
      exact sortedKeyList_sorted _

/-- C4 witness: the end-to-end scenario built with its namespace and pod
lists permuted yields the identical snapshot. -/
theorem c4_build_determinism_witness :
    scenarioBuilder.Build [scenarioNode] [scenarioNsProd, scenarioNsNonProd]
        [some scenarioPodProd, some scenarioPodNonProd] scenarioUsage 123 =
      scenarioBuilder.Build [scenarioNode] [scenarioNsNonProd, scenarioNsProd]
        [some scenarioPodNonProd, some scenarioPodProd] scenarioUsage 123 :=
  (c4_build_determinism scenarioBuilder [scenarioNode] [scenarioNode]
    [scenarioNsProd, scenarioNsNonProd] [scenarioNsNonProd, scenarioNsProd]
    [some scenarioPodProd, some scenarioPodNonProd]
    [some scenarioPodNonProd, some scenarioPodProd] scenarioUsage 123
    (List.Perm.refl _) (List.Perm.swap _ _ _) (List.Perm.swap _ _ _)
    (by with_unfolding_all decide) (by with_unfolding_all decide)).1
